import Mathlib

/-!
# The sampler engine of `deps/v8/src/platform-qnx.cc`

A shallow embedding of the profiler part of the QNX platform layer of V8:
`Sampler::Start` / `Sampler::Stop`, the `SignalSender` dispatcher thread
(`AddActiveSampler`, `RemoveActiveSampler`, `InstallSignalHandler`,
`RestoreSignalHandler`, `Run`, `DoCpuProfile`, `DoRuntimeProfile`,
`SendProfilingSignal`, `Sleep`), `ProfilerSignalHandler` and
`QNXSemaphore::Wait(int)`.

Process-wide state (the statics of `SignalSender`, the sampler objects, the
registry and the SIGPROF disposition of the process) is one record, `World`;
every function of the source becomes a function on `World`.  What the
dispatcher does to the outside (signals, ticks, sleeps, handler changes) is
returned as a list of `Event`s.  What other threads and the operating system
decide (results of `sigaction`, `sem_timedwait`, `gettimeofday`, the rate
limiter, registry changes made while the dispatcher runs) is an explicit
argument.
-/

namespace V8QNX

/-! ## Data model -/

/-- Address of a `Sampler` object (a `Sampler*`). -/
abbrev Ptr := Nat

/-- How a call ends: it returns, or the process is aborted by a failed assertion. -/
inductive Outcome where
  | ok
  | fatal
deriving DecidableEq, Repr

/-- Modelled from the spec: the `ASSERT` macro (declared in `checks.h`, not part of
this file).  Section 7 of the specification: a contract violation is a "fatal
assertion -- indicates a broken invariant, not a recoverable condition". -/
def ASSERT (condition : Bool) : Outcome :=
  if condition then Outcome.ok else Outcome.fatal

/-- The fields of `class Sampler` set by `Sampler::Sampler(Isolate*, int)`;
`isolate_` is represented by the one thing the dispatcher asks of it
(`isolate()->IsInitialized()`), `data_` by the thread id it holds
(`platform_data()->vm_tid()`). -/
structure Sampler where
  isolate_initialized : Bool
  interval_ : Int
  profiling_ : Bool
  active_ : Bool
  samples_taken_ : Nat
  vm_tid_ : Int
deriving DecidableEq, Repr

/-- A disposition of SIGPROF (`struct sigaction`): the default one, the
profiler's `ProfilerSignalHandler`, or some handler of the embedding program. -/
inductive SigAction where
  | SIG_DFL
  | ProfilerSignalHandler
  | user (id : Nat)
deriving DecidableEq, Repr

/-- The fields of a `SignalSender` object (`rate_limiter_` is external). -/
structure SignalSender where
  vm_tgid_ : Int
  interval_ : Int
deriving DecidableEq, Repr

/-- Process-wide state.

* `heap`: the sampler objects, by address;
* `active_samplers_`: the registry of `SamplerRegistry`;
* `instance_`, `signal_handler_installed_`, `old_signal_handler_`: the statics
  of `SignalSender`;
* `sigprof`: the disposition of SIGPROF currently in effect in the process;
* `pid`: what `getpid()` returns;
* `live_senders`: ghost counter, `SignalSender` objects created by `new` and
  not yet destroyed by `delete`. -/
structure World where
  heap : Ptr → Sampler
  active_samplers_ : List Ptr
  instance_ : Option SignalSender
  signal_handler_installed_ : Bool
  old_signal_handler_ : SigAction
  sigprof : SigAction
  pid : Int
  live_senders : Nat

/-- `Sampler::Sampler(isolate, interval)`: a freshly constructed sampler. -/
def Sampler.new (isolate_initialized : Bool) (interval : Int) (tid : Int) : Sampler :=
  { isolate_initialized := isolate_initialized
    interval_ := interval
    profiling_ := false
    active_ := false
    samples_taken_ := 0
    vm_tid_ := tid }

/-- The state at process start: `instance_ = NULL`,
`signal_handler_installed_ = false`, zero-initialised `old_signal_handler_`,
empty registry; `heap` holds the sampler objects the program will use and
`sigprof0` is the SIGPROF disposition of the embedding program. -/
def World.init (heap : Ptr → Sampler) (sigprof0 : SigAction) (pid : Int) : World :=
  { heap := heap
    active_samplers_ := []
    instance_ := none
    signal_handler_installed_ := false
    old_signal_handler_ := SigAction.SIG_DFL
    sigprof := sigprof0
    pid := pid
    live_senders := 0 }

/-- `sampler->IsActive()`. -/
def IsActive (w : World) (s : Ptr) : Bool := (w.heap s).active_

/-- `sampler->IsProfiling()`. -/
def IsProfiling (w : World) (s : Ptr) : Bool := (w.heap s).profiling_

/-- `sampler->SetActive(value)`. -/
def SetActive (s : Ptr) (value : Bool) (w : World) : World :=
  { w with heap := Function.update w.heap s { w.heap s with active_ := value } }

/-! ## SamplerRegistry -/

namespace SamplerRegistry

/-- The three-valued classification returned by `GetState`. -/
inductive State where
  | HAS_NO_SAMPLERS
  | HAS_SAMPLERS
  | HAS_CPU_PROFILING_SAMPLERS
deriving DecidableEq, Repr

/-- Modelled from the spec: `SamplerRegistry::AddActiveSampler` (defined in
`log.cc`, not part of this file).  4.1: "`AddActiveSampler(s)` inserts s (caller
must not double-add)". -/
def AddActiveSampler (s : Ptr) (w : World) : World :=
  { w with active_samplers_ := w.active_samplers_ ++ [s] }

/-- Modelled from the spec: `SamplerRegistry::RemoveActiveSampler` (defined in
`log.cc`).  4.1: "`RemoveActiveSampler(s)` removes if present, else no-op". -/
def RemoveActiveSampler (s : Ptr) (w : World) : World :=
  { w with active_samplers_ := w.active_samplers_.erase s }

/-- Modelled from the spec: `SamplerRegistry::GetState` (defined in `log.cc`).
4.1: "`GetState()` scans the active set ... returning the 3-valued
classification" into none / generic-tick-only / cpu-profiling-present. -/
def GetState (w : World) : State :=
  if w.active_samplers_.isEmpty then State.HAS_NO_SAMPLERS
  else if w.active_samplers_.any (fun s => IsProfiling w s) then
    State.HAS_CPU_PROFILING_SAMPLERS
  else State.HAS_SAMPLERS

end SamplerRegistry

/-! ## SignalSender: handler installation and the registry entry points -/

/-- `SignalSender::InstallSignalHandler`.  `sigaction_ok` says whether
`sigaction(SIGPROF, &sa, &old_signal_handler_)` returns 0; when it does, the
previous disposition is stored in `old_signal_handler_` and the profiler's
handler is in effect, otherwise nothing is changed by the call. -/
def InstallSignalHandler (sigaction_ok : Bool) (w : World) : World :=
  if sigaction_ok then
    { w with old_signal_handler_ := w.sigprof
             sigprof := SigAction.ProfilerSignalHandler
             signal_handler_installed_ := true }
  else
    { w with signal_handler_installed_ := false }

/-- `SignalSender::RestoreSignalHandler`.  The result of
`sigaction(SIGPROF, &old_signal_handler_, 0)` is ignored by the source; the call
is made only after an earlier `sigaction` on SIGPROF succeeded and is taken to
succeed. -/
def RestoreSignalHandler (w : World) : World :=
  if w.signal_handler_installed_ then
    { w with sigprof := w.old_signal_handler_
             signal_handler_installed_ := false }
  else w

/-- `SignalSender::AddActiveSampler`.  `new SignalSender(sampler->interval())`
followed by `instance_->Start()` creates the one dispatcher object. -/
def SignalSender.AddActiveSampler (s : Ptr) (w : World) : Outcome × World :=
  let w1 := SamplerRegistry.AddActiveSampler s w
  match w1.instance_ with
  | none =>
    (Outcome.ok,
      { w1 with instance_ := some { vm_tgid_ := w1.pid, interval_ := (w1.heap s).interval_ }
                live_senders := w1.live_senders + 1 })
  | some inst => (ASSERT (inst.interval_ == (w1.heap s).interval_), w1)

/-- `SignalSender::RemoveActiveSampler`.
`RuntimeProfiler::StopRuntimeProfilerThreadBeforeShutdown(instance_)` waits for
the dispatcher thread to leave `Run` and changes none of the fields of `World`;
`delete instance_` destroys the dispatcher object when there is one. -/
def SignalSender.RemoveActiveSampler (s : Ptr) (w : World) : World :=
  let w1 := SamplerRegistry.RemoveActiveSampler s w
  if SamplerRegistry.GetState w1 = SamplerRegistry.State.HAS_NO_SAMPLERS then
    RestoreSignalHandler
      { w1 with live_senders := if w1.instance_.isSome then w1.live_senders - 1
                                else w1.live_senders
                instance_ := none }
  else w1

/-! ## Sampler::Start and Sampler::Stop -/

/-- `Sampler::Start`. -/
def Sampler.Start (s : Ptr) (w : World) : Outcome × World :=
  match ASSERT (!IsActive w s) with
  | Outcome.fatal => (Outcome.fatal, w)
  | Outcome.ok => SignalSender.AddActiveSampler s (SetActive s true w)

/-- `Sampler::Stop`. -/
def Sampler.Stop (s : Ptr) (w : World) : Outcome × World :=
  match ASSERT (IsActive w s) with
  | Outcome.fatal => (Outcome.fatal, w)
  | Outcome.ok => (Outcome.ok, SetActive s false (SignalSender.RemoveActiveSampler s w))

/-- A call made by the embedding program on a sampler. -/
inductive Call where
  | Start (s : Ptr)
  | Stop (s : Ptr)
deriving DecidableEq, Repr

/-- The sampler a call is made on. -/
def Call.target : Call → Ptr
  | Call.Start s => s
  | Call.Stop s => s

/-- Executes one call. -/
def Call.exec : Call → World → Outcome × World
  | Call.Start s, w => Sampler.Start s w
  | Call.Stop s, w => Sampler.Stop s w

/-- Executes a sequence of calls in order; a fatal assertion ends the process,
the calls after it are not made and the state is the one at the abort. -/
def runCalls : List Call → World → Outcome × World
  | [], w => (Outcome.ok, w)
  | c :: cs, w =>
    match c.exec w with
    | (Outcome.ok, w1) => runCalls cs w1
    | (Outcome.fatal, w1) => (Outcome.fatal, w1)

/-- Number of `Start` calls in a sequence. -/
def numStarts (cs : List Call) : Nat :=
  (cs.filter (fun c => match c with | Call.Start _ => true | Call.Stop _ => false)).length

/-- Number of `Stop` calls in a sequence. -/
def numStops (cs : List Call) : Nat :=
  (cs.filter (fun c => match c with | Call.Start _ => false | Call.Stop _ => true)).length

/-- The calls respect the contract of `Start` and `Stop` when, `act` being the
samplers that are active before the sequence, `Start` is only called on an
inactive sampler and `Stop` only on an active one. -/
def validFrom (act : List Ptr) : List Call → Bool
  | [] => true
  | Call.Start s :: cs => !act.contains s && validFrom (s :: act) cs
  | Call.Stop s :: cs => act.contains s && validFrom (act.erase s) cs

/-- The last call made on sampler `s` in a sequence, if any. -/
def lastCall (s : Ptr) : List Call → Option Call
  | [] => none
  | c :: cs =>
    match lastCall s cs with
    | some d => some d
    | none => if c.target = s then some c else none

/-- The state `w` agrees with `act` being the active samplers: the registry holds
exactly these, each once, the `active_` flags say the same, and the dispatcher,
if there is one, has interval `I`. -/
structure Consistent (I : Int) (act : List Ptr) (w : World) : Prop where
  registry : w.active_samplers_.Perm act
  nodup : act.Nodup
  flags : ∀ s, IsActive w s = act.contains s
  sender : ∀ inst, w.instance_ = some inst → inst.interval_ = I

/-- The state `w` agrees with `act` being the active samplers: the registry holds
exactly these, each once, and the `active_` flags say the same. -/
structure Registered (act : List Ptr) (w : World) : Prop where
  registry : w.active_samplers_.Perm act
  nodup : act.Nodup
  flags : ∀ s, IsActive w s = act.contains s

/-- The calls of a sequence that are made: all of them, or, when a fatal
assertion ends the process, those up to and including the call it ends. -/
def callsMade : List Call → World → List Call
  | [], _ => []
  | c :: cs, w =>
    match c.exec w with
    | (Outcome.ok, w1) => c :: callsMade cs w1
    | (Outcome.fatal, _) => [c]

/-- The samplers that are active after a sequence of calls, `act` being the ones
active before it. -/
def actAfter (act : List Ptr) : List Call → List Ptr
  | [] => act
  | Call.Start s :: cs => actAfter (s :: act) cs
  | Call.Stop s :: cs => actAfter (act.erase s) cs

/-- A direct call of one of the two registry entry points of `SignalSender`. -/
inductive SenderCall where
  | AddActiveSampler (s : Ptr)
  | RemoveActiveSampler (s : Ptr)
deriving DecidableEq, Repr

/-- Executes one call of an entry point of `SignalSender`. -/
def SenderCall.exec : SenderCall → World → Outcome × World
  | SenderCall.AddActiveSampler s, w => SignalSender.AddActiveSampler s w
  | SenderCall.RemoveActiveSampler s, w => (Outcome.ok, SignalSender.RemoveActiveSampler s w)

/-- Executes a sequence of calls of the entry points of `SignalSender`, up to the
first fatal assertion. -/
def runSenderCalls : List SenderCall → World → Outcome × World
  | [], w => (Outcome.ok, w)
  | c :: cs, w =>
    match c.exec w with
    | (Outcome.ok, w1) => runSenderCalls cs w1
    | (Outcome.fatal, w1) => (Outcome.fatal, w1)

/-- Sampler objects for the examples: sampler 0 has a 10 ms interval, every
other sampler a 20 ms interval; all are freshly constructed. -/
def mixedHeap : Ptr → Sampler :=
  fun p => Sampler.new true (if p = 0 then 10 else 20) (Int.ofNat p + 100)

/-- Sampler objects for the examples: freshly constructed samplers that all have
a 10 ms interval. -/
def uniformHeap : Ptr → Sampler :=
  fun p => Sampler.new true 10 (Int.ofNat p + 100)

/-- The example state in which sampler 0 has been started and no other. -/
def oneStarted : World :=
  (Sampler.Start 0 (World.init uniformHeap (SigAction.user 7) 42)).2

/-! ## The dispatcher thread: `SignalSender::Run` and what it calls -/

/-- The argument of `SignalSender::Sleep`. -/
inductive SleepInterval where
  | HALF_INTERVAL
  | FULL_INTERVAL
deriving DecidableEq, Repr

/-- What a visitor passed to `IterateActiveSamplers` does to the outside. -/
inductive Effect where
  /-- Records `pthread_kill(tid, SIGPROF)`. -/
  | pthread_kill_SIGPROF (tid : Int)
  /-- Records `sampler->isolate()->runtime_profiler()->NotifyTick()` for sampler `s`. -/
  | NotifyTick (s : Ptr)
deriving DecidableEq, Repr

/-- The two visitors of the source. -/
inductive Visitor where
  | DoCpuProfile
  | DoRuntimeProfile
deriving DecidableEq, Repr

/-- `SignalSender::SendProfilingSignal`. -/
def SendProfilingSignal (tid : Int) (w : World) : List Effect :=
  if !w.signal_handler_installed_ then [] else [Effect.pthread_kill_SIGPROF tid]

/-- `SignalSender::DoCpuProfile`. -/
def DoCpuProfile (sampler : Ptr) (w : World) : List Effect :=
  if !IsProfiling w sampler then [] else SendProfilingSignal (w.heap sampler).vm_tid_ w

/-- `SignalSender::DoRuntimeProfile`. -/
def DoRuntimeProfile (sampler : Ptr) (w : World) : List Effect :=
  if !(w.heap sampler).isolate_initialized then [] else [Effect.NotifyTick sampler]

/-- The function a visitor names. -/
def Visitor.visit : Visitor → Ptr → World → List Effect
  | Visitor.DoCpuProfile => V8QNX.DoCpuProfile
  | Visitor.DoRuntimeProfile => V8QNX.DoRuntimeProfile

/-- The argument `SignalSender::Sleep` passes to `usleep`: `interval_ * 1000 - 100`
converted to the 32-bit unsigned `useconds_t`, halved for `HALF_INTERVAL`. -/
def SignalSender.Sleep (self : SignalSender) (full_or_half : SleepInterval) : Nat :=
  let interval := ((self.interval_ * 1000 - 100) % 2 ^ 32).toNat
  if full_or_half = SleepInterval.HALF_INTERVAL then interval / 2 else interval

/-- What another thread can do to the shared state while the dispatcher is inside
`Run`: the registry part of a `Sampler::Start` or `Sampler::Stop`, and changes of
a sampler's flags.  (A `Stop` that empties the registry waits for `Run` to end
before it touches `instance_` and the handler, and a `Start` finds `instance_`
set, so nothing else of `World` changes while `Run` is executing.) -/
inductive EnvOp where
  | AddActiveSampler (s : Ptr)
  | RemoveActiveSampler (s : Ptr)
  | SetProfiling (s : Ptr) (value : Bool)
  | SetActive (s : Ptr) (value : Bool)
deriving DecidableEq, Repr

/-- Effect of one operation of another thread. -/
def EnvOp.apply : EnvOp → World → World
  | EnvOp.AddActiveSampler s, w => SamplerRegistry.AddActiveSampler s w
  | EnvOp.RemoveActiveSampler s, w => SamplerRegistry.RemoveActiveSampler s w
  | EnvOp.SetProfiling s b, w =>
    { w with heap := Function.update w.heap s { w.heap s with profiling_ := b } }
  | EnvOp.SetActive s b, w => V8QNX.SetActive s b w

/-- Effect of a sequence of operations of other threads. -/
def applyOps (ops : List EnvOp) (w : World) : World :=
  ops.foldl (fun acc op => op.apply acc) w

/-- What the dispatcher does, in order, as seen from outside. -/
inductive Event where
  | GetState (state : SamplerRegistry.State)
  | InstallSignalHandler (sigaction_ok : Bool)
  | RestoreSignalHandler
  | SuspendIfNecessary (suspended : Bool)
  | IterateActiveSamplers (visitor : Visitor) (effects : List Effect) (result : Bool)
  | Sleep (full_or_half : SleepInterval) (usec : Nat)
deriving DecidableEq, Repr

/-- Result of one call of `IterateActiveSamplers`: the value returned, the events
it contributes, and the state after it. -/
structure Visit where
  result : Bool
  events : List Event
  world : World

/-- Stands for a call of `IterateActiveSamplers` that is not made (its `if` is
not taken): no event, nothing changes, and no `return` follows. -/
def Visit.notCalled (w : World) : Visit :=
  { result := true, events := [], world := w }

/-- Modelled from the spec: `SamplerRegistry::IterateActiveSamplers` (defined in
`log.cc`).  4.1: "`IterateActiveSamplers(visitor)` applies visitor to a snapshot;
returns false if the registry became empty mid-iteration, signaling the
dispatcher to stop".  `before` are the operations of other threads since the
dispatcher last read the shared state, `during` those made while the snapshot
is visited. -/
def SamplerRegistry.IterateActiveSamplers (visitor : Visitor) (before during : List EnvOp)
    (w : World) : Visit :=
  let w1 := applyOps before w
  let effects := (w1.active_samplers_.map (fun s => visitor.visit s w1)).flatten
  let w2 := applyOps during w1
  let result := !w2.active_samplers_.isEmpty
  { result := result
    events := [Event.IterateActiveSamplers visitor effects result]
    world := w2 }

/-- Everything outside the dispatcher that one pass through the loop of `Run`
depends on. -/
structure Round where
  /-- Operations of other threads since the previous pass (its sleeps included). -/
  before_state : List EnvOp
  /-- Result of `RuntimeProfiler::IsEnabled()`. -/
  runtime_profiler_enabled : Bool
  /-- Whether `sigaction` succeeds if `InstallSignalHandler` is called. -/
  sigaction_ok : Bool
  /-- Result of `rate_limiter_.SuspendIfNecessary()` if it is called. -/
  suspend : Bool
  before_cpu_notify : List EnvOp
  during_cpu_notify : List EnvOp
  before_tick_notify : List EnvOp
  during_tick_notify : List EnvOp

/-- How one pass through the loop ends. -/
inductive Control where
  /-- The loop condition failed: the registry state was `HAS_NO_SAMPLERS`. -/
  | exited
  /-- Records the `continue` taken after `SuspendIfNecessary()` returned true. -/
  | skipped
  /-- Records a `return` taken after `IterateActiveSamplers` returned false. -/
  | returned
  /-- The pass reached the end of the loop body. -/
  | next
deriving DecidableEq, Repr

/-- Result of one pass through the loop. -/
structure Pass where
  world : World
  events : List Event
  control : Control

/-- Lines 905-909 of `Run`: install or restore the handler. -/
def handlerStep (cpu_profiling_enabled : Bool) (sigaction_ok : Bool) (w : World) :
    World × List Event :=
  if cpu_profiling_enabled && !w.signal_handler_installed_ then
    (InstallSignalHandler sigaction_ok w, [Event.InstallSignalHandler sigaction_ok])
  else if !cpu_profiling_enabled && w.signal_handler_installed_ then
    (RestoreSignalHandler w, [Event.RestoreSignalHandler])
  else (w, [])

/-- Lines 914-937 of `Run`: the notifications and sleeps of one pass. -/
def notifyStep (self : SignalSender) (cpu_profiling_enabled runtime_profiler_enabled : Bool)
    (r : Round) (w : World) : Pass :=
  if cpu_profiling_enabled && runtime_profiler_enabled then
    let v1 := SamplerRegistry.IterateActiveSamplers Visitor.DoCpuProfile
      r.before_cpu_notify r.during_cpu_notify w
    if !v1.result then
      { world := v1.world, events := v1.events, control := Control.returned }
    else
      let s1 := [Event.Sleep SleepInterval.HALF_INTERVAL (self.Sleep SleepInterval.HALF_INTERVAL)]
      let v2 := SamplerRegistry.IterateActiveSamplers Visitor.DoRuntimeProfile
        r.before_tick_notify r.during_tick_notify v1.world
      if !v2.result then
        { world := v2.world, events := v1.events ++ s1 ++ v2.events, control := Control.returned }
      else
        { world := v2.world
          events := v1.events ++ s1 ++ v2.events ++
            [Event.Sleep SleepInterval.HALF_INTERVAL (self.Sleep SleepInterval.HALF_INTERVAL)]
          control := Control.next }
  else
    let v1 :=
      if cpu_profiling_enabled then
        SamplerRegistry.IterateActiveSamplers Visitor.DoCpuProfile
          r.before_cpu_notify r.during_cpu_notify w
      else Visit.notCalled w
    if !v1.result then
      { world := v1.world, events := v1.events, control := Control.returned }
    else
      let v2 :=
        if runtime_profiler_enabled then
          SamplerRegistry.IterateActiveSamplers Visitor.DoRuntimeProfile
            r.before_tick_notify r.during_tick_notify v1.world
        else Visit.notCalled v1.world
      if !v2.result then
        { world := v2.world, events := v1.events ++ v2.events, control := Control.returned }
      else
        { world := v2.world
          events := v1.events ++ v2.events ++
            [Event.Sleep SleepInterval.FULL_INTERVAL (self.Sleep SleepInterval.FULL_INTERVAL)]
          control := Control.next }

/-- One pass through the `while` loop of `SignalSender::Run`: the loop condition
and, when it holds, the loop body. -/
def SignalSender.RunPass (self : SignalSender) (r : Round) (w0 : World) : Pass :=
  let w := applyOps r.before_state w0
  let state := SamplerRegistry.GetState w
  if state = SamplerRegistry.State.HAS_NO_SAMPLERS then
    { world := w, events := [Event.GetState state], control := Control.exited }
  else
    let cpu_profiling_enabled :=
      decide (state = SamplerRegistry.State.HAS_CPU_PROFILING_SAMPLERS)
    let runtime_profiler_enabled := r.runtime_profiler_enabled
    let h := handlerStep cpu_profiling_enabled r.sigaction_ok w
    if !cpu_profiling_enabled && r.suspend then
      { world := h.1
        events := [Event.GetState state] ++ h.2 ++ [Event.SuspendIfNecessary true]
        control := Control.skipped }
    else
      let n := notifyStep self cpu_profiling_enabled runtime_profiler_enabled r h.1
      { world := n.world
        events := [Event.GetState state] ++ h.2 ++
          (if cpu_profiling_enabled then [] else [Event.SuspendIfNecessary false]) ++ n.events
        control := n.control }

/-- Result of running the dispatcher against a finite schedule: `finished` is
true when `Run` has returned, false when the schedule ended first. -/
structure RunResult where
  world : World
  events : List Event
  finished : Bool

/-- `SignalSender::Run`, one `Round` per pass through the loop. -/
def SignalSender.Run (self : SignalSender) : List Round → World → RunResult
  | [], w => { world := w, events := [], finished := false }
  | r :: rs, w =>
    let p := self.RunPass r w
    match p.control with
    | Control.exited => { world := p.world, events := p.events, finished := true }
    | Control.returned => { world := p.world, events := p.events, finished := true }
    | Control.skipped =>
      let rest := SignalSender.Run self rs p.world
      { world := rest.world, events := p.events ++ rest.events, finished := rest.finished }
    | Control.next =>
      let rest := SignalSender.Run self rs p.world
      { world := rest.world, events := p.events ++ rest.events, finished := rest.finished }

/-- The notifications and sleeps among the events of the dispatcher. -/
inductive Action where
  | NotifyCpuSamplers
  | NotifyTickWatchers
  | Sleep (full_or_half : SleepInterval)
deriving DecidableEq, Repr

/-- The action an event stands for, if it is a notification or a sleep. -/
def Event.action : Event → Option Action
  | Event.IterateActiveSamplers Visitor.DoCpuProfile _ _ => some Action.NotifyCpuSamplers
  | Event.IterateActiveSamplers Visitor.DoRuntimeProfile _ _ => some Action.NotifyTickWatchers
  | Event.Sleep i _ => some (Action.Sleep i)
  | _ => none

/-- The ordered notifications and sleeps of a list of events. -/
def actions (events : List Event) : List Action := events.filterMap Event.action

/-- The sequence of notifications and sleeps section 4.2 of the specification
prescribes for a pass, by the two flags (steps 4 and 5). -/
def expectedActions (cpu tick : Bool) : List Action :=
  match cpu, tick with
  | true, true =>
    [Action.NotifyCpuSamplers, Action.Sleep SleepInterval.HALF_INTERVAL,
     Action.NotifyTickWatchers, Action.Sleep SleepInterval.HALF_INTERVAL]
  | true, false => [Action.NotifyCpuSamplers, Action.Sleep SleepInterval.FULL_INTERVAL]
  | false, true => [Action.NotifyTickWatchers, Action.Sleep SleepInterval.FULL_INTERVAL]
  | false, false => [Action.Sleep SleepInterval.FULL_INTERVAL]

/-- The handler part of the state is the same in `w` and `w1`. -/
def HandlerUnchanged (w w1 : World) : Prop :=
  w1.signal_handler_installed_ = w.signal_handler_installed_ ∧
  w1.sigprof = w.sigprof ∧
  w1.old_signal_handler_ = w.old_signal_handler_

/-- An event that belongs to a dispatcher which serves tick watchers only: no
handler is installed or restored, the registry state is not
`HAS_CPU_PROFILING_SAMPLERS`, and a notification is a run of `DoRuntimeProfile`
whose effects are `NotifyTick` calls. -/
def Event.tickOnly : Event → Prop
  | Event.GetState state => state ≠ SamplerRegistry.State.HAS_CPU_PROFILING_SAMPLERS
  | Event.InstallSignalHandler _ => False
  | Event.RestoreSignalHandler => False
  | Event.SuspendIfNecessary _ => True
  | Event.IterateActiveSamplers visitor effects _ =>
    visitor = Visitor.DoRuntimeProfile ∧ ∀ eff ∈ effects, ∃ s, eff = Effect.NotifyTick s
  | Event.Sleep _ _ => True

/-- No notify step among the events reports an empty registry. -/
def NoEmptyReport (events : List Event) : Prop :=
  ∀ visitor effects, Event.IterateActiveSamplers visitor effects false ∉ events

/-- The example state in which sampler 0 has been started and is profiling. -/
def oneProfiling : World := (EnvOp.SetProfiling 0 true).apply oneStarted

/-- The example dispatcher object created by the `Start` of sampler 0. -/
def exampleSender : SignalSender := { vm_tgid_ := 42, interval_ := 10 }

/-- An example pass in which nothing happens concurrently, the runtime profiler
is enabled, `sigaction` succeeds and the rate limiter does not suspend. -/
def quietRound : Round :=
  { before_state := []
    runtime_profiler_enabled := true
    sigaction_ok := true
    suspend := false
    before_cpu_notify := []
    during_cpu_notify := []
    before_tick_notify := []
    during_tick_notify := [] }

/-- An example pass in which the runtime profiler is off and the `Stop` of another
thread removes sampler 0 from the registry after the dispatcher has read the
registry state and before it notifies the CPU samplers. -/
def stopRound : Round :=
  { quietRound with
    runtime_profiler_enabled := false
    before_cpu_notify := [EnvOp.RemoveActiveSampler 0] }

/-! ## ProfilerSignalHandler -/

/-- The fields of `TickSample` the handler writes. -/
structure TickSample where
  state : Nat
  pc : Nat
  sp : Nat
  fp : Nat
deriving DecidableEq, Repr

/-- What the handler asks of the current `Isolate`. -/
structure Isolate where
  /-- Result of `IsInitialized()`. -/
  initialized : Bool
  /-- Result of `IsInUse()`. -/
  in_use : Bool
  /-- Result of `thread_manager()->IsLockedByCurrentThread()`. -/
  locked_by_current_thread : Bool
  /-- Result of `logger()->sampler()`, `none` for NULL. -/
  sampler : Option Ptr
  /-- Result of `current_vm_state()`. -/
  current_vm_state : Nat
deriving DecidableEq, Repr

/-- The registers of `ucontext->uc_mcontext.cpu` the handler reads, by host
architecture; `other` is a host for which none of `V8_HOST_ARCH_IA32`,
`V8_HOST_ARCH_X64`, `V8_HOST_ARCH_ARM` is defined. -/
inductive MContext where
  | IA32 (eip esp ebp : Nat)
  | X64 (rip rsp rbp : Nat)
  | ARM (gpr_ARM_REG_PC gpr_ARM_REG_SP gpr_ARM_REG_FP : Nat)
  | other
deriving DecidableEq, Repr

/-- Where the sample handed to the sampler lives: the slot returned by
`CpuProfiler::TickSampleEvent`, or the handler's local `sample_obj`. -/
inductive SampleLoc where
  | slot (address : Nat)
  | sample_obj
deriving DecidableEq, Repr

/-- The calls the handler makes, in order. -/
inductive HandlerEvent where
  | TickSampleEvent
  | SampleStack (sampler : Ptr) (sample_at : SampleLoc) (sample : TickSample)
  | Tick (sampler : Ptr) (sample_at : SampleLoc) (sample : TickSample)
deriving DecidableEq, Repr

/-- Everything the handler finds when it is entered. -/
structure SignalContext where
  /-- Result of `Isolate::UncheckedCurrent()`, `none` for NULL. -/
  current_isolate : Option Isolate
  /-- Result of `v8::Locker::IsActive()`. -/
  locker_active : Bool
  /-- Result of `CpuProfiler::TickSampleEvent(isolate)` if it is called: the
  address of the slot and what the slot holds, `none` for NULL. -/
  tick_sample_event : Option (Nat × TickSample)
  /-- The local `sample_obj` as its constructor leaves it. -/
  sample_obj : TickSample
  /-- The machine context delivered with the signal. -/
  mcontext : MContext

/-- The assignments to `sample->pc`, `sample->sp`, `sample->fp`. -/
def extractRegisters (mcontext : MContext) (sample : TickSample) : TickSample :=
  match mcontext with
  | MContext.IA32 eip esp ebp => { sample with pc := eip, sp := esp, fp := ebp }
  | MContext.X64 rip rsp rbp => { sample with pc := rip, sp := rsp, fp := rbp }
  | MContext.ARM pc sp fp => { sample with pc := pc, sp := sp, fp := fp }
  | MContext.other => sample

/-- `ProfilerSignalHandler(signal, info, context)`; `SIGPROF` is the number of
that signal on the host. -/
def ProfilerSignalHandler (SIGPROF : Int) (signal : Int) (cx : SignalContext) (w : World) :
    List HandlerEvent :=
  if signal != SIGPROF then [] else
  match cx.current_isolate with
  | none => []
  | some isolate =>
    if !isolate.initialized || !isolate.in_use then [] else
    if cx.locker_active && !isolate.locked_by_current_thread then [] else
    match isolate.sampler with
    | none => []
    | some sampler =>
      if !IsActive w sampler then [] else
      let (sample_at, sample0) :=
        match cx.tick_sample_event with
        | some (address, content) => (SampleLoc.slot address, content)
        | none => (SampleLoc.sample_obj, cx.sample_obj)
      let sample := extractRegisters cx.mcontext
        { sample0 with state := isolate.current_vm_state }
      [HandlerEvent.TickSampleEvent,
       HandlerEvent.SampleStack sampler sample_at sample,
       HandlerEvent.Tick sampler sample_at sample]

/-- The preconditions of the handler, in the words of the specification: the
signal is SIGPROF; a current isolate exists, is initialized and is in use; the
locker is not active or the isolate is locked by the current thread; the
isolate's sampler is non-null and active. -/
def handlerPreconditions (SIGPROF : Int) (signal : Int) (cx : SignalContext) (w : World) :
    Prop :=
  signal = SIGPROF ∧
  ∃ isolate, cx.current_isolate = some isolate ∧
    isolate.initialized = true ∧ isolate.in_use = true ∧
    (cx.locker_active = false ∨ isolate.locked_by_current_thread = true) ∧
    ∃ sampler, isolate.sampler = some sampler ∧ IsActive w sampler = true

/-! ## QNXSemaphore::Wait(int) -/

/-- The C `struct timeval`. -/
structure timeval where
  tv_sec : Int
  tv_usec : Int
deriving DecidableEq, Repr

/-- The C `struct timespec`. -/
structure timespec where
  tv_sec : Int
  tv_nsec : Int
deriving DecidableEq, Repr

/-- The `timeradd` macro of `<sys/time.h>`. -/
def timeradd (a b : timeval) : timeval :=
  let sec := a.tv_sec + b.tv_sec
  let usec := a.tv_usec + b.tv_usec
  if usec >= 1000000 then { tv_sec := sec + 1, tv_usec := usec - 1000000 }
  else { tv_sec := sec, tv_usec := usec }

/-- The `TIMEVAL_TO_TIMESPEC` macro defined above `QNXSemaphore::Wait(int)`. -/
def TIMEVAL_TO_TIMESPEC (tv : timeval) : timespec :=
  { tv_sec := tv.tv_sec, tv_nsec := tv.tv_usec * 1000 }

/-- What one call of `sem_timedwait` reports: 0, or -1 with `errno` being
`ETIMEDOUT`, `EINTR`, or something else. -/
inductive SemResult where
  | success
  | ETIMEDOUT
  | EINTR
  | failure
deriving DecidableEq, Repr

/-- How `Wait(int)` ends: it returns a value, a `CHECK` fails, or it is still
inside `sem_timedwait` when the listed outcomes are used up. -/
inductive WaitEnd where
  | returned (value : Bool)
  | check_failed
  | waiting
deriving DecidableEq, Repr

/-- The `while (true)` loop of `Wait(int)`: the way it ends and the deadline
passed to each call of `sem_timedwait`, in order. -/
def QNXSemaphore.waitLoop (ts : timespec) : List SemResult → WaitEnd × List timespec
  | [] => (WaitEnd.waiting, [])
  | SemResult.success :: _ => (WaitEnd.returned true, [ts])
  | SemResult.ETIMEDOUT :: _ => (WaitEnd.returned false, [ts])
  | SemResult.failure :: _ => (WaitEnd.check_failed, [ts])
  | SemResult.EINTR :: rest =>
    let r := QNXSemaphore.waitLoop ts rest
    (r.1, ts :: r.2)

/-- The deadline `Wait(int)` computes from the current time and the timeout
(microseconds); `/` and `%` of C truncate towards zero. -/
def QNXSemaphore.deadline (timeout : Int) (current_time : timeval) : timespec :=
  let kOneSecondMicros : Int := 1000000
  let delta : timeval :=
    { tv_usec := Int.tmod timeout kOneSecondMicros
      tv_sec := Int.tdiv timeout kOneSecondMicros }
  let end_time := timeradd current_time delta
  TIMEVAL_TO_TIMESPEC end_time

/-- `QNXSemaphore::Wait(int timeout)`.  `gettimeofday` is the time the clock
reports, `none` when `gettimeofday` returns -1; `outcomes` are the results of
the successive calls of `sem_timedwait`. -/
def QNXSemaphore.Wait (timeout : Int) (gettimeofday : Option timeval)
    (outcomes : List SemResult) : WaitEnd × List timespec :=
  match gettimeofday with
  | none => (WaitEnd.returned false, [])
  | some current_time =>
    QNXSemaphore.waitLoop (QNXSemaphore.deadline timeout current_time) outcomes

/-- Microseconds since the epoch denoted by a `timeval`. -/
def timeval.micros (tv : timeval) : Int := tv.tv_sec * 1000000 + tv.tv_usec

/-- Nanoseconds since the epoch denoted by a `timespec`. -/
def timespec.nanos (ts : timespec) : Int := ts.tv_sec * 1000000000 + ts.tv_nsec

/-- The registers `ProfilerSignalHandler` has code to read from the delivered
machine context: instruction pointer, stack pointer, frame pointer; `none` on a
host for which the handler has no `#if` branch. -/
def MContext.registers : MContext → Option (Nat × Nat × Nat)
  | MContext.IA32 eip esp ebp => some (eip, esp, ebp)
  | MContext.X64 rip rsp rbp => some (rip, rsp, rbp)
  | MContext.ARM pc sp fp => some (pc, sp, fp)
  | MContext.other => none

/-- An example of what the handler finds on an X64 host: an initialized isolate in
use whose sampler is sampler 0, no locker, no free slot in the profiler (so the
local `sample_obj` is used). -/
def exampleContext : SignalContext :=
  { current_isolate := some
      { initialized := true, in_use := true, locked_by_current_thread := false,
        sampler := some 0, current_vm_state := 3 }
    locker_active := false
    tick_sample_event := none
    sample_obj := { state := 0, pc := 0, sp := 0, fp := 0 }
    mcontext := MContext.X64 4096 8192 8200 }

/-! ## The whole system: registry entry points interleaved with dispatcher passes -/

/-- A step of the system made of the threads that call `SignalSender::AddActiveSampler`
and `SignalSender::RemoveActiveSampler` and of the dispatcher thread.  A call that
another thread makes while the dispatcher is in the middle of a pass shows in
the `Round` of that pass (its registry part as an `EnvOp`), followed by the
step of the call itself. -/
inductive SysStep where
  | AddActiveSampler (s : Ptr)
  | RemoveActiveSampler (s : Ptr)
  | DispatcherPass (r : Round)

/-- Executes one step; a pass of the dispatcher is made by the object `instance_`
points to and does nothing when there is none. -/
def SysStep.exec : SysStep → World → Outcome × World
  | SysStep.AddActiveSampler s, w => SignalSender.AddActiveSampler s w
  | SysStep.RemoveActiveSampler s, w => (Outcome.ok, SignalSender.RemoveActiveSampler s w)
  | SysStep.DispatcherPass r, w =>
    match w.instance_ with
    | some inst => (Outcome.ok, (inst.RunPass r w).world)
    | none => (Outcome.ok, w)

/-- Executes a sequence of steps, up to the first fatal assertion. -/
def runSystem : List SysStep → World → Outcome × World
  | [], w => (Outcome.ok, w)
  | c :: cs, w =>
    match c.exec w with
    | (Outcome.ok, w1) => runSystem cs w1
    | (Outcome.fatal, w1) => (Outcome.fatal, w1)

/-- The handler part of the state is coherent, `sigprof0` being the SIGPROF handler
of the embedding program: while the flag is set the profiler's handler is in
effect and the saved one is `sigprof0`, and while it is clear `sigprof0` is in
effect. -/
def HandlerCoherent (sigprof0 : SigAction) (w : World) : Prop :=
  (w.signal_handler_installed_ = true →
    w.sigprof = SigAction.ProfilerSignalHandler ∧ w.old_signal_handler_ = sigprof0) ∧
  (w.signal_handler_installed_ = false → w.sigprof = sigprof0)

/-- An example pass during which another thread sets the profiling flag of
sampler 0 before the dispatcher reads the registry state. -/
def profilingRound : Round :=
  { quietRound with before_state := [EnvOp.SetProfiling 0 true] }

/-- An example pass in which the rate limiter asks the dispatcher to suspend. -/
def suspendRound : Round := { quietRound with suspend := true }

/-! ## VirtualMemory::VirtualMemory(size_t, size_t) -/

/-- Modelled from the spec: `RoundUp` (a template of `utils.h`, not part of this
file).  Neither this file nor the specification defines it; it is taken in the
meaning of its name, the least multiple of `m` that is not below `x`. -/
def RoundUp (x m : Nat) : Nat := (x + m - 1) / m * m

/-- Modelled from the spec: `IsAligned` (a template of `utils.h`, not part of this
file), taken in the meaning of its name: `value` is a multiple of `alignment`. -/
def IsAligned (value alignment : Nat) : Bool := value % alignment == 0

/-- A value as a `size_t` or an `Address` of `bits` bits holds it. -/
def wrap (bits : Nat) (x : Nat) : Nat := x % 2 ^ bits

/-- Subtraction of two `bits`-bit unsigned values. -/
def wrapSub (bits : Nat) (a b : Nat) : Nat := (a + 2 ^ bits - b % 2 ^ bits) % 2 ^ bits

/-- The fields of a `VirtualMemory` object; address 0 is NULL. -/
structure VirtualMemory where
  address_ : Nat
  size_ : Nat
deriving DecidableEq, Repr

/-- What a run of the constructor amounts to: how it ends, the object, the length
passed to `mmap`, and the `OS::Free(address, size)` calls in order. -/
structure Construction where
  outcome : Outcome
  vm : VirtualMemory
  request_size : Nat
  freed : List (Nat × Nat)
deriving DecidableEq, Repr

/-- `VirtualMemory::VirtualMemory(size_t size, size_t alignment)` on a machine with
`bits`-bit addresses and sizes.  `page` is what `OS::AllocateAlignment()` returns
(`sysconf(_SC_PAGESIZE)`); `reservation` is the address `mmap` returns, `none`
for `MAP_FAILED`. -/
def VirtualMemory.aligned (bits page : Nat) (size alignment : Nat)
    (reservation : Option Nat) : Construction :=
  let null : VirtualMemory := { address_ := 0, size_ := 0 }
  match ASSERT (IsAligned alignment page) with
  | Outcome.fatal => { outcome := Outcome.fatal, vm := null, request_size := 0, freed := [] }
  | Outcome.ok =>
    let request_size := wrap bits (RoundUp (wrap bits (size + alignment)) page)
    match reservation with
    | none => { outcome := Outcome.ok, vm := null, request_size := request_size, freed := [] }
    | some base =>
      let aligned_base := wrap bits (RoundUp base alignment)
      match ASSERT (decide (base ≤ aligned_base)) with
      | Outcome.fatal =>
        { outcome := Outcome.fatal, vm := null, request_size := request_size, freed := [] }
      | Outcome.ok =>
        let prefix_size := wrapSub bits aligned_base base
        let freed1 := if aligned_base != base then [(base, prefix_size)] else []
        let request_size1 :=
          if aligned_base != base then wrapSub bits request_size prefix_size else request_size
        let aligned_size := wrap bits (RoundUp size page)
        match ASSERT (decide (aligned_size ≤ request_size1)) with
        | Outcome.fatal =>
          { outcome := Outcome.fatal, vm := null, request_size := request_size,
            freed := freed1 }
        | Outcome.ok =>
          let suffix_size := wrapSub bits request_size1 aligned_size
          let freed2 :=
            if aligned_size != request_size1 then
              freed1 ++ [(wrap bits (aligned_base + aligned_size), suffix_size)]
            else freed1
          let request_size2 :=
            if aligned_size != request_size1 then wrapSub bits request_size1 suffix_size
            else request_size1
          match ASSERT (aligned_size == request_size2) with
          | Outcome.fatal =>
            { outcome := Outcome.fatal, vm := null, request_size := request_size,
              freed := freed2 }
          | Outcome.ok =>
            { outcome := Outcome.ok
              vm := { address_ := aligned_base, size_ := aligned_size }
              request_size := request_size
              freed := freed2 }

/-! ## Theorems -/

section StartStop

theorem IsActive_SetActive (s t : Ptr) (b : Bool) (w : World) :
    IsActive (SetActive s b w) t = if t = s then b else IsActive w t := by
  unfold IsActive SetActive
  by_cases h : t = s
  · subst h; simp
  · simp [Function.update, h]

theorem interval_SetActive (s t : Ptr) (b : Bool) (w : World) :
    ((SetActive s b w).heap t).interval_ = (w.heap t).interval_ := by
  unfold SetActive
  by_cases h : t = s
  · subst h; simp
  · simp [Function.update, h]

theorem actAfter_length (cs : List Call) : ∀ act : List Ptr, validFrom act cs = true →
    (actAfter act cs).length + numStops cs = act.length + numStarts cs := by
  induction cs with
  | nil => intro act _; simp [actAfter, numStops, numStarts]
  | cons c cs ih =>
    intro act hv
    cases c with
    | Start s =>
      simp only [validFrom, Bool.and_eq_true] at hv
      have h := ih (s :: act) hv.2
      simp only [actAfter, numStops, numStarts, List.filter, List.length_cons] at h ⊢
      omega
    | Stop s =>
      simp only [validFrom, Bool.and_eq_true] at hv
      have hmem : s ∈ act := by simpa using hv.1
      have h := ih (act.erase s) hv.2
      have hl := List.length_erase_of_mem hmem
      have hpos : 0 < act.length := List.length_pos_of_mem hmem
      simp only [actAfter, numStops, numStarts, List.filter, List.length_cons] at h ⊢
      omega

theorem actAfter_nodup (cs : List Call) : ∀ act : List Ptr, act.Nodup →
    validFrom act cs = true → (actAfter act cs).Nodup := by
  induction cs with
  | nil => intro act h _; simpa [actAfter] using h
  | cons c cs ih =>
    intro act hnd hv
    cases c with
    | Start s =>
      simp only [validFrom, Bool.and_eq_true] at hv
      have hnot : s ∉ act := by simpa using hv.1
      exact ih (s :: act) (List.nodup_cons.mpr ⟨hnot, hnd⟩) hv.2
    | Stop s =>
      simp only [validFrom, Bool.and_eq_true] at hv
      exact ih (act.erase s) (hnd.erase s) hv.2

theorem actAfter_lastCall (s : Ptr) (cs : List Call) : ∀ act : List Ptr, act.Nodup →
    validFrom act cs = true →
    (lastCall s cs = none → (s ∈ actAfter act cs ↔ s ∈ act)) ∧
    (lastCall s cs = some (Call.Stop s) → s ∉ actAfter act cs) := by
  induction cs with
  | nil => intro act _ _; simp [lastCall, actAfter]
  | cons c cs ih =>
    intro act hnd hv
    cases c with
    | Start t =>
      simp only [validFrom, Bool.and_eq_true] at hv
      have hnot : t ∉ act := by simpa using hv.1
      have h := ih (t :: act) (List.nodup_cons.mpr ⟨hnot, hnd⟩) hv.2
      simp only [lastCall, actAfter]
      cases hl : lastCall s cs with
      | some d => simpa [hl] using h.2
      | none =>
        simp only [hl] at h ⊢
        by_cases hts : t = s
        · simp [Call.target, hts]
        · have h1 := h.1 trivial
          simp [Call.target, hts, h1, List.mem_cons, Ne.symm hts]
    | Stop t =>
      simp only [validFrom, Bool.and_eq_true] at hv
      have h := ih (act.erase t) (hnd.erase t) hv.2
      simp only [lastCall, actAfter]
      cases hl : lastCall s cs with
      | some d => simpa [hl] using h.2
      | none =>
        simp only [hl] at h ⊢
        have h1 := h.1 trivial
        by_cases hts : t = s
        · subst hts
          have : t ∉ act.erase t := hnd.not_mem_erase
          simp [Call.target, h1, this]
        · have hne : s ≠ t := Ne.symm hts
          simp [Call.target, hts, h1, List.mem_erase_of_ne hne]

theorem RestoreSignalHandler_heap (w : World) : (RestoreSignalHandler w).heap = w.heap := by
  unfold RestoreSignalHandler; split <;> rfl

theorem RestoreSignalHandler_registry (w : World) :
    (RestoreSignalHandler w).active_samplers_ = w.active_samplers_ := by
  unfold RestoreSignalHandler; split <;> rfl

theorem RestoreSignalHandler_instance (w : World) :
    (RestoreSignalHandler w).instance_ = w.instance_ := by
  unfold RestoreSignalHandler; split <;> rfl

theorem RestoreSignalHandler_live (w : World) :
    (RestoreSignalHandler w).live_senders = w.live_senders := by
  unfold RestoreSignalHandler; split <;> rfl

theorem RestoreSignalHandler_installed (w : World) :
    (RestoreSignalHandler w).signal_handler_installed_ = false := by
  unfold RestoreSignalHandler
  split
  · rfl
  · next h => simpa using h

theorem RemoveActiveSampler_heap (s : Ptr) (w : World) :
    (SignalSender.RemoveActiveSampler s w).heap = w.heap := by
  unfold SignalSender.RemoveActiveSampler
  simp only
  split
  · rw [RestoreSignalHandler_heap]; rfl
  · rfl

theorem RemoveActiveSampler_registry (s : Ptr) (w : World) :
    (SignalSender.RemoveActiveSampler s w).active_samplers_ = w.active_samplers_.erase s := by
  unfold SignalSender.RemoveActiveSampler
  simp only
  split
  · rw [RestoreSignalHandler_registry]; rfl
  · rfl

theorem RemoveActiveSampler_instance (s : Ptr) (w : World) :
    (SignalSender.RemoveActiveSampler s w).instance_ = none ∨
    (SignalSender.RemoveActiveSampler s w).instance_ = w.instance_ := by
  unfold SignalSender.RemoveActiveSampler
  simp only
  split
  · left; rw [RestoreSignalHandler_instance]
  · right; rfl

theorem AddActiveSampler_heap (s : Ptr) (w : World) :
    (SignalSender.AddActiveSampler s w).2.heap = w.heap := by
  unfold SignalSender.AddActiveSampler
  simp only
  split <;> rfl

theorem AddActiveSampler_registry (s : Ptr) (w : World) :
    (SignalSender.AddActiveSampler s w).2.active_samplers_ = w.active_samplers_ ++ [s] := by
  unfold SignalSender.AddActiveSampler
  simp only
  split <;> rfl

theorem exec_interval (c : Call) (w : World) (t : Ptr) :
    ((c.exec w).2.heap t).interval_ = (w.heap t).interval_ := by
  cases c with
  | Start s =>
    simp only [Call.exec, Sampler.Start]
    split
    · rfl
    · rw [AddActiveSampler_heap, interval_SetActive]
  | Stop s =>
    simp only [Call.exec, Sampler.Stop]
    split
    · rfl
    · rw [interval_SetActive, RemoveActiveSampler_heap]

theorem Start_consistent (I : Int) (act : List Ptr) (w : World) (s : Ptr)
    (hc : Consistent I act w) (hs : s ∉ act) (hI : (w.heap s).interval_ = I) :
    (Sampler.Start s w).1 = Outcome.ok ∧ Consistent I (s :: act) (Sampler.Start s w).2 := by
  have hflag : IsActive w s = false := by rw [hc.flags]; simpa using hs
  have hstart : Sampler.Start s w = SignalSender.AddActiveSampler s (SetActive s true w) := by
    simp [Sampler.Start, ASSERT, hflag]
  rw [hstart]
  refine ⟨?_, ?_, ?_, ?_, ?_⟩
  · unfold SignalSender.AddActiveSampler
    simp only
    split
    · rfl
    · next inst hinst =>
      have h1 : inst.interval_ = I := hc.sender inst hinst
      have h2 : ((SetActive s true w).heap s).interval_ = I := by
        rw [interval_SetActive]; exact hI
      simp [ASSERT, SamplerRegistry.AddActiveSampler, h1, h2]
  · rw [AddActiveSampler_registry]
    exact (List.perm_append_singleton s _).trans (hc.registry.cons s)
  · exact List.nodup_cons.mpr ⟨hs, hc.nodup⟩
  · intro t
    have h : IsActive (SignalSender.AddActiveSampler s (SetActive s true w)).2 t
        = IsActive (SetActive s true w) t := by
      unfold IsActive; rw [AddActiveSampler_heap]
    rw [h, IsActive_SetActive, hc.flags]
    by_cases hts : t = s
    · simp [hts]
    · simp [hts]
  · intro inst hinst
    unfold SignalSender.AddActiveSampler at hinst
    simp only at hinst
    split at hinst
    · simp only [Option.some.injEq] at hinst
      rw [← hinst]
      show (((SamplerRegistry.AddActiveSampler s (SetActive s true w)).heap s)).interval_ = I
      have : (SamplerRegistry.AddActiveSampler s (SetActive s true w)).heap
          = (SetActive s true w).heap := rfl
      rw [this, interval_SetActive]; exact hI
    · next i0 hi0 =>
      have : (SamplerRegistry.AddActiveSampler s (SetActive s true w)).instance_
          = w.instance_ := rfl
      rw [this] at hi0
      simp only at hinst
      rw [this, hi0] at hinst
      exact hc.sender inst (by rw [hi0]; exact hinst)

theorem Stop_consistent (I : Int) (act : List Ptr) (w : World) (s : Ptr)
    (hc : Consistent I act w) (hs : s ∈ act) :
    (Sampler.Stop s w).1 = Outcome.ok ∧ Consistent I (act.erase s) (Sampler.Stop s w).2 := by
  have hflag : IsActive w s = true := by rw [hc.flags]; simpa using hs
  have hstop : Sampler.Stop s w
      = (Outcome.ok, SetActive s false (SignalSender.RemoveActiveSampler s w)) := by
    simp [Sampler.Stop, ASSERT, hflag]
  rw [hstop]
  refine ⟨rfl, ?_, ?_, ?_, ?_⟩
  · show (SignalSender.RemoveActiveSampler s w).active_samplers_.Perm (act.erase s)
    rw [RemoveActiveSampler_registry]
    exact hc.registry.erase s
  · exact hc.nodup.erase s
  · intro t
    show IsActive (SetActive s false (SignalSender.RemoveActiveSampler s w)) t = _
    rw [IsActive_SetActive]
    by_cases hts : t = s
    · subst hts
      have : t ∉ act.erase t := hc.nodup.not_mem_erase
      simp [this]
    · have h : IsActive (SignalSender.RemoveActiveSampler s w) t = IsActive w t := by
        unfold IsActive; rw [RemoveActiveSampler_heap]
      have hmem : t ∈ act.erase s ↔ t ∈ act := List.mem_erase_of_ne hts
      simp only [hts, if_false, h, hc.flags]
      by_cases hta : t ∈ act
      · simp [hta, hmem.mpr hta]
      · simp [hta, mt hmem.mp hta]
  · intro inst hinst
    have hinst2 : (SignalSender.RemoveActiveSampler s w).instance_ = some inst := hinst
    rcases RemoveActiveSampler_instance s w with h | h
    · rw [h] at hinst2; cases hinst2
    · rw [h] at hinst2; exact hc.sender inst hinst2

theorem runCalls_consistent (I : Int) (cs : List Call) : ∀ (act : List Ptr) (w : World),
    Consistent I act w → (∀ c ∈ cs, (w.heap c.target).interval_ = I) →
    validFrom act cs = true →
    (runCalls cs w).1 = Outcome.ok ∧ Consistent I (actAfter act cs) (runCalls cs w).2 := by
  induction cs with
  | nil => intro act w hc _ _; exact ⟨rfl, hc⟩
  | cons c cs ih =>
    intro act w hc hI hv
    have hI2 : ∀ d ∈ cs, (((c.exec w).2).heap d.target).interval_ = I := by
      intro d hd
      rw [exec_interval]
      exact hI d (List.mem_cons_of_mem _ hd)
    cases c with
    | Start s =>
      simp only [validFrom, Bool.and_eq_true] at hv
      have hnot : s ∉ act := by simpa using hv.1
      have hstep := Start_consistent I act w s hc hnot (hI _ (List.mem_cons_self _ _))
      have hrun : runCalls (Call.Start s :: cs) w = runCalls cs (Sampler.Start s w).2 := by
        have h1 := hstep.1
        simp only [runCalls, Call.exec]
        rcases hx : Sampler.Start s w with ⟨o, w1⟩
        rw [hx] at h1
        simp only at h1
        subst h1
        rfl
      rw [hrun]
      exact ih (s :: act) _ hstep.2 hI2 hv.2
    | Stop s =>
      simp only [validFrom, Bool.and_eq_true] at hv
      have hmem : s ∈ act := by simpa using hv.1
      have hstep := Stop_consistent I act w s hc hmem
      have hrun : runCalls (Call.Stop s :: cs) w = runCalls cs (Sampler.Stop s w).2 := by
        have h1 := hstep.1
        simp only [runCalls, Call.exec]
        rcases hx : Sampler.Stop s w with ⟨o, w1⟩
        rw [hx] at h1
        simp only at h1
        subst h1
        rfl
      rw [hrun]
      exact ih (act.erase s) _ hstep.2 hI2 hv.2

theorem Consistent_init (I : Int) (heap : Ptr → Sampler) (sigprof0 : SigAction) (pid : Int)
    (hinactive : ∀ s, (heap s).active_ = false) :
    Consistent I [] (World.init heap sigprof0 pid) where
  registry := List.Perm.refl _
  nodup := List.nodup_nil
  flags := by intro s; simp [IsActive, World.init, hinactive]
  sender := by intro inst h; simp [World.init] at h

theorem Start_registered (act : List Ptr) (w : World) (s : Ptr)
    (hc : Registered act w) (hs : s ∉ act) :
    Registered (s :: act) (Sampler.Start s w).2 := by
  have hflag : IsActive w s = false := by rw [hc.flags]; simpa using hs
  have hstart : Sampler.Start s w = SignalSender.AddActiveSampler s (SetActive s true w) := by
    simp [Sampler.Start, ASSERT, hflag]
  rw [hstart]
  refine ⟨?_, ?_, ?_⟩
  · rw [AddActiveSampler_registry]
    exact (List.perm_append_singleton s _).trans (hc.registry.cons s)
  · exact List.nodup_cons.mpr ⟨hs, hc.nodup⟩
  · intro t
    have h : IsActive (SignalSender.AddActiveSampler s (SetActive s true w)).2 t
        = IsActive (SetActive s true w) t := by
      unfold IsActive; rw [AddActiveSampler_heap]
    rw [h, IsActive_SetActive, hc.flags]
    by_cases hts : t = s
    · simp [hts]
    · simp [hts]

theorem Stop_registered (act : List Ptr) (w : World) (s : Ptr)
    (hc : Registered act w) (hs : s ∈ act) :
    (Sampler.Stop s w).1 = Outcome.ok ∧ Registered (act.erase s) (Sampler.Stop s w).2 := by
  have hflag : IsActive w s = true := by rw [hc.flags]; simpa using hs
  have hstop : Sampler.Stop s w
      = (Outcome.ok, SetActive s false (SignalSender.RemoveActiveSampler s w)) := by
    simp [Sampler.Stop, ASSERT, hflag]
  rw [hstop]
  refine ⟨rfl, ?_, ?_, ?_⟩
  · show (SignalSender.RemoveActiveSampler s w).active_samplers_.Perm (act.erase s)
    rw [RemoveActiveSampler_registry]
    exact hc.registry.erase s
  · exact hc.nodup.erase s
  · intro t
    show IsActive (SetActive s false (SignalSender.RemoveActiveSampler s w)) t = _
    rw [IsActive_SetActive]
    by_cases hts : t = s
    · subst hts
      have : t ∉ act.erase t := hc.nodup.not_mem_erase
      simp [this]
    · have h : IsActive (SignalSender.RemoveActiveSampler s w) t = IsActive w t := by
        unfold IsActive; rw [RemoveActiveSampler_heap]
      have hmem : t ∈ act.erase s ↔ t ∈ act := List.mem_erase_of_ne hts
      simp only [hts, if_false, h, hc.flags]
      by_cases hta : t ∈ act
      · simp [hta, hmem.mpr hta]
      · simp [hta, mt hmem.mp hta]

theorem runCalls_cons (c : Call) (cs : List Call) (w : World) :
    runCalls (c :: cs) w =
      if (c.exec w).1 = Outcome.ok then runCalls cs (c.exec w).2
      else (Outcome.fatal, (c.exec w).2) := by
  simp only [runCalls]
  generalize c.exec w = x
  obtain ⟨o, w1⟩ := x
  cases o <;> rfl

theorem callsMade_cons (c : Call) (cs : List Call) (w : World) :
    callsMade (c :: cs) w =
      if (c.exec w).1 = Outcome.ok then c :: callsMade cs (c.exec w).2 else [c] := by
  simp only [callsMade]
  generalize c.exec w = x
  obtain ⟨o, w1⟩ := x
  cases o <;> rfl

/-- Whatever the intervals of the samplers: after the calls that are made, the
state agrees with the samplers that these calls leave active; the calls made
respect the contract; and they are all the calls when no assertion fails. -/
theorem runCalls_registered (cs : List Call) : ∀ (act : List Ptr) (w : World),
    Registered act w → validFrom act cs = true →
    Registered (actAfter act (callsMade cs w)) (runCalls cs w).2 ∧
    validFrom act (callsMade cs w) = true ∧
    ((runCalls cs w).1 = Outcome.ok → callsMade cs w = cs) := by
  induction cs with
  | nil => intro act w hc _; exact ⟨hc, rfl, fun _ => rfl⟩
  | cons c cs ih =>
    intro act w hc hv
    rw [runCalls_cons, callsMade_cons]
    cases c with
    | Start s =>
      simp only [validFrom, Bool.and_eq_true] at hv
      have hnot : s ∉ act := by simpa using hv.1
      have hstep : Registered (s :: act) ((Call.Start s).exec w).2 :=
        Start_registered act w s hc hnot
      by_cases hok : ((Call.Start s).exec w).1 = Outcome.ok
      · rw [if_pos hok, if_pos hok]
        obtain ⟨h1, h2, h3⟩ := ih (s :: act) _ hstep hv.2
        refine ⟨h1, ?_, fun h => by rw [h3 h]⟩
        simp only [validFrom, Bool.and_eq_true]
        exact ⟨hv.1, h2⟩
      · rw [if_neg hok, if_neg hok]
        refine ⟨hstep, ?_, fun h => by cases h⟩
        simp only [validFrom, Bool.and_eq_true]
        exact ⟨hv.1, trivial⟩
    | Stop s =>
      simp only [validFrom, Bool.and_eq_true] at hv
      have hmem : s ∈ act := by simpa using hv.1
      obtain ⟨hok, hstep⟩ := Stop_registered act w s hc hmem
      have hok2 : ((Call.Stop s).exec w).1 = Outcome.ok := hok
      have hstep2 : Registered (act.erase s) ((Call.Stop s).exec w).2 := hstep
      rw [if_pos hok2, if_pos hok2]
      obtain ⟨h1, h2, h3⟩ := ih (act.erase s) _ hstep2 hv.2
      refine ⟨h1, ?_, fun h => by rw [h3 h]⟩
      simp only [validFrom, Bool.and_eq_true]
      exact ⟨hv.1, h2⟩

theorem Registered_init (heap : Ptr → Sampler) (sigprof0 : SigAction) (pid : Int)
    (hinactive : ∀ s, (heap s).active_ = false) :
    Registered [] (World.init heap sigprof0 pid) where
  registry := List.Perm.refl _
  nodup := List.nodup_nil
  flags := by intro s; simp [IsActive, World.init, hinactive]

/-- C1: for every sequence of `Sampler::Start` / `Sampler::Stop` calls over any
number of samplers (all inactive at the beginning, of any intervals), in which
`Start` is only called on an inactive sampler and `Stop` only on an active one:
after the calls that are made, the number of samplers in the registry plus the
number of `Stop`s equals the number of `Start`s, and every sampler whose last
call was `Stop` is absent from the registry and reports `IsActive() == false`.
The calls made are the whole sequence whenever no assertion ends the process,
which is the case when the samplers have one common interval (the only
assertion such a sequence can fail is the one on the interval in
`SignalSender::AddActiveSampler`, and a `Start` it ends has registered its
sampler). -/
theorem C1_registry_size_is_starts_minus_stops (heap : Ptr → Sampler) (sigprof0 : SigAction)
    (pid : Int) (cs : List Call)
    (hinactive : ∀ s, (heap s).active_ = false)
    (hvalid : validFrom [] cs = true) :
    (runCalls cs (World.init heap sigprof0 pid)).2.active_samplers_.length
      + numStops (callsMade cs (World.init heap sigprof0 pid))
      = numStarts (callsMade cs (World.init heap sigprof0 pid)) ∧
    (∀ s, lastCall s (callsMade cs (World.init heap sigprof0 pid)) = some (Call.Stop s) →
      s ∉ (runCalls cs (World.init heap sigprof0 pid)).2.active_samplers_ ∧
      IsActive (runCalls cs (World.init heap sigprof0 pid)).2 s = false) ∧
    ((runCalls cs (World.init heap sigprof0 pid)).1 = Outcome.ok →
      callsMade cs (World.init heap sigprof0 pid) = cs) ∧
    (∀ I : Int, (∀ c ∈ cs, (heap c.target).interval_ = I) →
      (runCalls cs (World.init heap sigprof0 pid)).1 = Outcome.ok) := by
  obtain ⟨hreg, hmade, hall⟩ := runCalls_registered cs [] (World.init heap sigprof0 pid)
    (Registered_init heap sigprof0 pid hinactive) hvalid
  refine ⟨?_, ?_, hall, ?_⟩
  · have hl := actAfter_length (callsMade cs (World.init heap sigprof0 pid)) [] hmade
    have hp := hreg.registry.length_eq
    simp only [List.length_nil] at hl
    omega
  · intro s hs
    have hnot : s ∉ actAfter [] (callsMade cs (World.init heap sigprof0 pid)) :=
      (actAfter_lastCall s _ [] List.nodup_nil hmade).2 hs
    refine ⟨fun hmem => hnot (hreg.registry.mem_iff.mp hmem), ?_⟩
    rw [hreg.flags]
    simpa using hnot
  · intro I hI
    exact (runCalls_consistent I cs [] (World.init heap sigprof0 pid)
      (Consistent_init I heap sigprof0 pid hinactive) hI hvalid).1

/-- C1, at the calls `Start 0, Stop 0, Start 1` on a sampler 0 with a 10 ms
interval and a sampler 1 with a 20 ms interval: all three calls are made, one
sampler stays registered, and sampler 0 is neither registered nor active. -/
theorem C1_registry_size_witness :
    validFrom [] [Call.Start 0, Call.Stop 0, Call.Start 1] = true ∧
    callsMade [Call.Start 0, Call.Stop 0, Call.Start 1]
      (World.init mixedHeap SigAction.SIG_DFL 42)
      = [Call.Start 0, Call.Stop 0, Call.Start 1] ∧
    (runCalls [Call.Start 0, Call.Stop 0, Call.Start 1]
      (World.init mixedHeap SigAction.SIG_DFL 42)).2.active_samplers_.length
      + numStops (callsMade [Call.Start 0, Call.Stop 0, Call.Start 1]
        (World.init mixedHeap SigAction.SIG_DFL 42))
      = numStarts (callsMade [Call.Start 0, Call.Stop 0, Call.Start 1]
        (World.init mixedHeap SigAction.SIG_DFL 42)) ∧
    (0 ∉ (runCalls [Call.Start 0, Call.Stop 0, Call.Start 1]
      (World.init mixedHeap SigAction.SIG_DFL 42)).2.active_samplers_ ∧
     IsActive (runCalls [Call.Start 0, Call.Stop 0, Call.Start 1]
      (World.init mixedHeap SigAction.SIG_DFL 42)).2 0 = false) :=
  have h := C1_registry_size_is_starts_minus_stops mixedHeap SigAction.SIG_DFL 42
    [Call.Start 0, Call.Stop 0, Call.Start 1] (fun _ => rfl) (by decide)
  ⟨by decide, h.2.2.1 (by decide), h.1, h.2.1 0 (by decide)⟩

theorem GetState_none_iff (w : World) :
    SamplerRegistry.GetState w = SamplerRegistry.State.HAS_NO_SAMPLERS ↔
      w.active_samplers_ = [] := by
  unfold SamplerRegistry.GetState
  cases h : w.active_samplers_ with
  | nil => simp
  | cons a l =>
    simp only [List.isEmpty_cons, Bool.false_eq_true, if_false]
    split <;> simp

theorem AddActiveSampler_instance_isSome (s : Ptr) (w : World) :
    (SignalSender.AddActiveSampler s w).2.instance_.isSome = true := by
  unfold SignalSender.AddActiveSampler
  simp only
  split
  · rfl
  · next inst hinst =>
    have : (SamplerRegistry.AddActiveSampler s w).instance_.isSome = true := by
      rw [hinst]; rfl
    exact this

theorem AddActiveSampler_live (s : Ptr) (w : World) :
    (SignalSender.AddActiveSampler s w).2.live_senders =
      w.live_senders + (if w.instance_ = none then 1 else 0) := by
  unfold SignalSender.AddActiveSampler
  simp only
  split
  · next hinst =>
    have h0 : w.instance_ = none := hinst
    simp [h0, SamplerRegistry.AddActiveSampler]
  · next inst hinst =>
    have h0 : w.instance_ = some inst := hinst
    simp [h0, SamplerRegistry.AddActiveSampler]

theorem AddActiveSampler_instance_of_some (s : Ptr) (w : World) (h : w.instance_ ≠ none) :
    (SignalSender.AddActiveSampler s w).2.instance_ = w.instance_ := by
  unfold SignalSender.AddActiveSampler
  simp only
  split
  · next hinst => exact absurd hinst h
  · rfl

theorem RemoveActiveSampler_live (s : Ptr) (w : World) :
    (SignalSender.RemoveActiveSampler s w).live_senders =
      if w.active_samplers_.erase s = [] then
        (if w.instance_ = none then w.live_senders else w.live_senders - 1)
      else w.live_senders := by
  unfold SignalSender.RemoveActiveSampler
  simp only
  split
  · next hempty =>
    rw [GetState_none_iff] at hempty
    have h0 : w.active_samplers_.erase s = [] := hempty
    rw [RestoreSignalHandler_live, if_pos h0]
    show (if w.instance_.isSome = true then w.live_senders - 1 else w.live_senders) = _
    cases w.instance_ <;> simp
  · next hne =>
    rw [GetState_none_iff] at hne
    have h0 : ¬ w.active_samplers_.erase s = [] := hne
    rw [if_neg h0]
    rfl

theorem RemoveActiveSampler_instance_eq (s : Ptr) (w : World) :
    (SignalSender.RemoveActiveSampler s w).instance_ =
      if w.active_samplers_.erase s = [] then none else w.instance_ := by
  unfold SignalSender.RemoveActiveSampler
  simp only
  split
  · next hempty =>
    rw [GetState_none_iff] at hempty
    have h0 : w.active_samplers_.erase s = [] := hempty
    rw [RestoreSignalHandler_instance, if_pos h0]
  · next hne =>
    rw [GetState_none_iff] at hne
    have h0 : ¬ w.active_samplers_.erase s = [] := hne
    rw [if_neg h0]
    rfl

theorem sender_invariant_step (c : SenderCall) (w : World)
    (h1 : w.instance_.isSome = true ↔ w.active_samplers_ ≠ [])
    (h2 : w.live_senders = if w.instance_.isSome then 1 else 0) :
    ((c.exec w).2.instance_.isSome = true ↔ (c.exec w).2.active_samplers_ ≠ []) ∧
    (c.exec w).2.live_senders = if (c.exec w).2.instance_.isSome then 1 else 0 := by
  cases c with
  | AddActiveSampler s =>
    simp only [SenderCall.exec]
    simp only [AddActiveSampler_instance_isSome, AddActiveSampler_registry,
      AddActiveSampler_live, if_true]
    refine ⟨by simp, ?_⟩
    rw [h2]
    cases w.instance_ <;> simp
  | RemoveActiveSampler s =>
    simp only [SenderCall.exec]
    simp only [RemoveActiveSampler_instance_eq, RemoveActiveSampler_registry,
      RemoveActiveSampler_live]
    by_cases h0 : w.active_samplers_.erase s = []
    · simp only [h0, if_true, Option.isSome_none, Bool.false_eq_true, if_false, ne_eq,
        not_true_eq_false]
      refine ⟨trivial, ?_⟩
      rw [h2]
      cases w.instance_ <;> simp
    · have hne2 : w.active_samplers_ ≠ [] := by
        intro h; apply h0; simp [h]
      have hsome := h1.mpr hne2
      simp only [h0, if_false, hsome, if_true, ne_eq, not_false_eq_true, iff_self, true_and]
      rw [h2, hsome]; rfl

theorem runSenderCalls_cons (c : SenderCall) (cs : List SenderCall) (w : World) :
    (runSenderCalls (c :: cs) w).2 =
      if (c.exec w).1 = Outcome.ok then (runSenderCalls cs (c.exec w).2).2 else (c.exec w).2 := by
  simp only [runSenderCalls]
  generalize c.exec w = x
  obtain ⟨o, w1⟩ := x
  cases o <;> rfl

theorem runSenderCalls_invariant (cs : List SenderCall) : ∀ w : World,
    (w.instance_.isSome = true ↔ w.active_samplers_ ≠ []) →
    (w.live_senders = if w.instance_.isSome then 1 else 0) →
    ((runSenderCalls cs w).2.instance_.isSome = true ↔
      (runSenderCalls cs w).2.active_samplers_ ≠ []) ∧
    (runSenderCalls cs w).2.live_senders =
      if (runSenderCalls cs w).2.instance_.isSome then 1 else 0 := by
  induction cs with
  | nil => intro w h1 h2; exact ⟨h1, h2⟩
  | cons c cs ih =>
    intro w h1 h2
    have hstep := sender_invariant_step c w h1 h2
    rw [runSenderCalls_cons]
    by_cases hok : (c.exec w).1 = Outcome.ok
    · rw [if_pos hok]; exact ih _ hstep.1 hstep.2
    · rw [if_neg hok]; exact hstep

/-- C2: starting from the initial state, after every sequence of
`SignalSender::AddActiveSampler` / `RemoveActiveSampler` calls the dispatcher
instance exists (`instance_ != NULL`) if and only if the registry is not empty,
and the number of `SignalSender` objects alive is 1 when `instance_` is set and 0
otherwise; `AddActiveSampler` creates a `SignalSender` exactly when `instance_`
is NULL and otherwise leaves `instance_` as it is. -/
theorem C2_dispatcher_exists_iff_registry_nonempty (heap : Ptr → Sampler) (sigprof0 : SigAction)
    (pid : Int) (cs : List SenderCall) (s : Ptr) :
    ((runSenderCalls cs (World.init heap sigprof0 pid)).2.instance_ ≠ none ↔
      (runSenderCalls cs (World.init heap sigprof0 pid)).2.active_samplers_ ≠ []) ∧
    (runSenderCalls cs (World.init heap sigprof0 pid)).2.live_senders =
      (if (runSenderCalls cs (World.init heap sigprof0 pid)).2.instance_ = none then 0 else 1) ∧
    (SignalSender.AddActiveSampler s
        (runSenderCalls cs (World.init heap sigprof0 pid)).2).2.live_senders =
      (runSenderCalls cs (World.init heap sigprof0 pid)).2.live_senders +
      (if (runSenderCalls cs (World.init heap sigprof0 pid)).2.instance_ = none then 1 else 0) ∧
    ((runSenderCalls cs (World.init heap sigprof0 pid)).2.instance_ ≠ none →
      (SignalSender.AddActiveSampler s
        (runSenderCalls cs (World.init heap sigprof0 pid)).2).2.instance_ =
      (runSenderCalls cs (World.init heap sigprof0 pid)).2.instance_) := by
  have h := runSenderCalls_invariant cs (World.init heap sigprof0 pid)
    (by simp [World.init]) (by simp [World.init])
  generalize (runSenderCalls cs (World.init heap sigprof0 pid)).2 = w at h ⊢
  cases hi : w.instance_ with
  | none =>
    simp only [hi, Option.isSome_none, Bool.false_eq_true, false_iff, if_false] at h
    refine ⟨?_, ?_, ?_, ?_⟩
    · simpa using h.1
    · simpa using h.2
    · simp [SignalSender.AddActiveSampler, SamplerRegistry.AddActiveSampler, hi]
    · intro hne; exact absurd rfl hne
  | some inst =>
    simp only [hi, Option.isSome_some, true_iff, if_true] at h
    refine ⟨?_, ?_, ?_, ?_⟩
    · simpa using h.1
    · simpa using h.2
    · simp [SignalSender.AddActiveSampler, SamplerRegistry.AddActiveSampler, hi]
    · intro _
      simp [SignalSender.AddActiveSampler, SamplerRegistry.AddActiveSampler, hi]

/-- C2, after `AddActiveSampler 0, AddActiveSampler 1, RemoveActiveSampler 0` on
samplers with a common interval: the registry is not empty, the dispatcher
exists and it is the only `SignalSender` alive. -/
theorem C2_dispatcher_exists_witness :
    (runSenderCalls [SenderCall.AddActiveSampler 0, SenderCall.AddActiveSampler 1,
      SenderCall.RemoveActiveSampler 0] (World.init uniformHeap SigAction.SIG_DFL 42)).2.instance_
      ≠ none ∧
    (runSenderCalls [SenderCall.AddActiveSampler 0, SenderCall.AddActiveSampler 1,
      SenderCall.RemoveActiveSampler 0]
      (World.init uniformHeap SigAction.SIG_DFL 42)).2.live_senders = 1 :=
  have h := C2_dispatcher_exists_iff_registry_nonempty uniformHeap SigAction.SIG_DFL 42
    [SenderCall.AddActiveSampler 0, SenderCall.AddActiveSampler 1,
      SenderCall.RemoveActiveSampler 0] 2
  ⟨h.1.mpr (by decide), h.2.1.trans (if_neg (h.1.mpr (by decide)))⟩

/-- C8: `Sampler::Start` on an active sampler and `Sampler::Stop` on a sampler that
is not active end in a fatal assertion with the state (registry, `instance_`,
sampler flags and everything else) exactly as it was before the call. -/
theorem C8_double_start_or_stop_is_fatal (w : World) (s : Ptr) :
    (IsActive w s = true → Sampler.Start s w = (Outcome.fatal, w)) ∧
    (IsActive w s = false → Sampler.Stop s w = (Outcome.fatal, w)) := by
  constructor
  · intro h; simp [Sampler.Start, ASSERT, h]
  · intro h; simp [Sampler.Stop, ASSERT, h]

/-- C8, in the state where only sampler 0 has been started: a second `Start` of
sampler 0 and a `Stop` of sampler 1 are both fatal and change nothing. -/
theorem C8_double_start_or_stop_witness :
    IsActive oneStarted 0 = true ∧ IsActive oneStarted 1 = false ∧
    Sampler.Start 0 oneStarted = (Outcome.fatal, oneStarted) ∧
    Sampler.Stop 1 oneStarted = (Outcome.fatal, oneStarted) :=
  ⟨by decide, by decide,
    (C8_double_start_or_stop_is_fatal oneStarted 0).1 (by decide),
    (C8_double_start_or_stop_is_fatal oneStarted 1).2 (by decide)⟩

end StartStop

section Handler

end Handler

section Semaphore

theorem waitLoop_eintr (ts : timespec) (k : Nat) (rest : List SemResult) :
    QNXSemaphore.waitLoop ts (List.replicate k SemResult.EINTR ++ rest) =
      ((QNXSemaphore.waitLoop ts rest).1,
        List.replicate k ts ++ (QNXSemaphore.waitLoop ts rest).2) := by
  induction k with
  | zero => simp
  | succ n ih =>
    show QNXSemaphore.waitLoop ts (SemResult.EINTR :: (List.replicate n SemResult.EINTR ++ rest))
      = _
    simp only [QNXSemaphore.waitLoop, ih]
    rfl

theorem deadline_nanos (timeout : Int) (now : timeval) :
    (QNXSemaphore.deadline timeout now).nanos = (now.micros + timeout) * 1000 := by
  have h := Int.tdiv_add_tmod timeout 1000000
  unfold QNXSemaphore.deadline timeradd TIMEVAL_TO_TIMESPEC timespec.nanos timeval.micros
  simp only
  split <;> simp only <;> omega

/-- C6: for every timeout, every time `now` read from the clock and every
sequence of `sem_timedwait` outcomes made of `k` EINTR interruptions followed by
success or ETIMEDOUT, `Wait(timeout)` returns true when the final outcome is
success and false when it is ETIMEDOUT; it calls `sem_timedwait` `k + 1` times,
each time with the same deadline, which denotes `now + timeout`; after EINTR
outcomes alone it has not returned; and when `gettimeofday` fails it returns
false without calling `sem_timedwait`. -/
theorem C6_timed_wait_outcomes (timeout : Int) (now : timeval) (k : Nat) (acquired : Bool)
    (later outcomes : List SemResult) :
    QNXSemaphore.Wait timeout (some now)
        (List.replicate k SemResult.EINTR ++
          (if acquired then SemResult.success else SemResult.ETIMEDOUT) :: later)
      = (WaitEnd.returned acquired,
          List.replicate (k + 1) (QNXSemaphore.deadline timeout now)) ∧
    (QNXSemaphore.deadline timeout now).nanos = (now.micros + timeout) * 1000 ∧
    QNXSemaphore.Wait timeout (some now) (List.replicate k SemResult.EINTR)
      = (WaitEnd.waiting, List.replicate k (QNXSemaphore.deadline timeout now)) ∧
    QNXSemaphore.Wait timeout none outcomes = (WaitEnd.returned false, []) := by
  refine ⟨?_, deadline_nanos timeout now, ?_, rfl⟩
  · simp only [QNXSemaphore.Wait]
    rw [waitLoop_eintr]
    cases acquired <;>
      simp [QNXSemaphore.waitLoop, List.replicate_succ', List.append_assoc]
  · simp only [QNXSemaphore.Wait]
    have h := waitLoop_eintr (QNXSemaphore.deadline timeout now) k []
    simp only [List.append_nil] at h
    rw [h]
    simp [QNXSemaphore.waitLoop]

end Semaphore

section CpuProfile

/-- C7: for a sampler visited by `DoCpuProfile`, a SIGPROF is sent if and only if
the sampler's profiling flag is set and `signal_handler_installed_` is true, and
then exactly one signal is sent, to the sampler's `vm_tid()`; after an
`InstallSignalHandler` whose `sigaction` failed the flag is false and no signal
is sent (and nothing else is done). -/
theorem C7_signal_sent_iff_profiling_and_installed (sampler : Ptr) (w : World) :
    DoCpuProfile sampler w =
      (if IsProfiling w sampler = true ∧ w.signal_handler_installed_ = true then
        [Effect.pthread_kill_SIGPROF (w.heap sampler).vm_tid_] else []) ∧
    (InstallSignalHandler false w).signal_handler_installed_ = false ∧
    DoCpuProfile sampler (InstallSignalHandler false w) = [] := by
  refine ⟨?_, rfl, ?_⟩
  · unfold DoCpuProfile SendProfilingSignal
    cases h1 : IsProfiling w sampler <;> cases h2 : w.signal_handler_installed_ <;> simp
  · unfold DoCpuProfile SendProfilingSignal InstallSignalHandler
    cases h1 : IsProfiling w sampler <;> simp [IsProfiling] at h1 ⊢

end CpuProfile

section Dispatcher

theorem HandlerUnchanged.refl (w : World) : HandlerUnchanged w w := ⟨rfl, rfl, rfl⟩

theorem HandlerUnchanged.trans {a b c : World} (h1 : HandlerUnchanged a b)
    (h2 : HandlerUnchanged b c) : HandlerUnchanged a c :=
  ⟨h2.1.trans h1.1, h2.2.1.trans h1.2.1, h2.2.2.trans h1.2.2⟩

theorem EnvOp_apply_handler (op : EnvOp) (w : World) : HandlerUnchanged w (op.apply w) := by
  cases op <;> exact ⟨rfl, rfl, rfl⟩

theorem applyOps_handler (ops : List EnvOp) : ∀ w : World, HandlerUnchanged w (applyOps ops w) := by
  induction ops with
  | nil => intro w; exact HandlerUnchanged.refl w
  | cons op ops ih =>
    intro w
    exact (EnvOp_apply_handler op w).trans (ih (op.apply w))

theorem Iterate_handler (v : Visitor) (b d : List EnvOp) (w : World) :
    HandlerUnchanged w (SamplerRegistry.IterateActiveSamplers v b d w).world :=
  (applyOps_handler b w).trans (applyOps_handler d _)

theorem Iterate_events (v : Visitor) (b d : List EnvOp) (w : World) :
    ∃ effects, (SamplerRegistry.IterateActiveSamplers v b d w).events =
      [Event.IterateActiveSamplers v effects
        (SamplerRegistry.IterateActiveSamplers v b d w).result] :=
  ⟨_, rfl⟩

theorem Iterate_tick_events (b d : List EnvOp) (w : World) :
    ∃ effects, (∀ eff ∈ effects, ∃ s, eff = Effect.NotifyTick s) ∧
      (SamplerRegistry.IterateActiveSamplers Visitor.DoRuntimeProfile b d w).events =
      [Event.IterateActiveSamplers Visitor.DoRuntimeProfile effects
        (SamplerRegistry.IterateActiveSamplers Visitor.DoRuntimeProfile b d w).result] := by
  refine ⟨_, ?_, rfl⟩
  intro eff heff
  simp only [List.mem_flatten, List.mem_map] at heff
  obtain ⟨l, ⟨s, _, hl⟩, hmem⟩ := heff
  subst hl
  simp only [Visitor.visit, DoRuntimeProfile] at hmem
  split at hmem
  · simp at hmem
  · exact ⟨s, by simpa using hmem⟩

theorem actions_append (a b : List Event) : actions (a ++ b) = actions a ++ actions b := by
  simp [actions, List.filterMap_append]

theorem NoEmptyReport_append {a b : List Event} (ha : NoEmptyReport a) (hb : NoEmptyReport b) :
    NoEmptyReport (a ++ b) := by
  intro v e h
  rcases List.mem_append.mp h with h | h
  · exact ha v e h
  · exact hb v e h

theorem NoEmptyReport_nil : NoEmptyReport [] := by
  intro v e h; simp at h

theorem NoEmptyReport_sleep (i : SleepInterval) (n : Nat) : NoEmptyReport [Event.Sleep i n] := by
  intro v e h; simp at h

theorem NoEmptyReport_iterate (v : Visitor) (b d : List EnvOp) (w : World)
    (h : (SamplerRegistry.IterateActiveSamplers v b d w).result = true) :
    NoEmptyReport (SamplerRegistry.IterateActiveSamplers v b d w).events := by
  obtain ⟨effects, he⟩ := Iterate_events v b d w
  rw [he, h]
  intro v1 e1 hmem
  simp at hmem

theorem actions_iterate (v : Visitor) (b d : List EnvOp) (w : World) :
    actions (SamplerRegistry.IterateActiveSamplers v b d w).events =
      [match v with
        | Visitor.DoCpuProfile => Action.NotifyCpuSamplers
        | Visitor.DoRuntimeProfile => Action.NotifyTickWatchers] := by
  cases v <;> rfl

/-- What `notifyStep` does: either it reaches the end of the loop body, no
notify step has reported an empty registry and the notifications and sleeps are
the prescribed ones, or it returns right after the first notify step that
reported an empty registry. -/
theorem notifyStep_cases (self : SignalSender) (cpu rt : Bool) (r : Round) (w : World) :
    ((notifyStep self cpu rt r w).control = Control.next ∧
      NoEmptyReport (notifyStep self cpu rt r w).events ∧
      actions (notifyStep self cpu rt r w).events = expectedActions cpu rt) ∨
    ((notifyStep self cpu rt r w).control = Control.returned ∧
      ∃ pre v effects, (notifyStep self cpu rt r w).events =
        pre ++ [Event.IterateActiveSamplers v effects false] ∧ NoEmptyReport pre) := by
  cases cpu <;> cases rt
  · left
    simp only [notifyStep, Visit.notCalled, Bool.and_self, Bool.false_eq_true, if_false,
      Bool.not_true, List.nil_append]
    exact ⟨trivial, NoEmptyReport_sleep _ _, rfl⟩
  · simp only [notifyStep, Visit.notCalled, Bool.and_true, Bool.false_eq_true, if_false,
      Bool.not_true, if_true, List.nil_append]
    cases hres : (SamplerRegistry.IterateActiveSamplers Visitor.DoRuntimeProfile
        r.before_tick_notify r.during_tick_notify w).result
    · right
      obtain ⟨effects, he⟩ := Iterate_events Visitor.DoRuntimeProfile
        r.before_tick_notify r.during_tick_notify w
      rw [hres] at he
      simp only [Bool.not_false, if_true]
      exact ⟨trivial, [], _, effects, by rw [he]; rfl, NoEmptyReport_nil⟩
    · left
      simp only [Bool.not_true, Bool.false_eq_true, if_false]
      refine ⟨trivial, NoEmptyReport_append (NoEmptyReport_iterate _ _ _ _ hres)
        (NoEmptyReport_sleep _ _), ?_⟩
      rw [actions_append, actions_iterate]; rfl
  · simp only [notifyStep, Visit.notCalled, Bool.and_false, Bool.false_eq_true, if_false,
      Bool.not_true, if_true, List.append_nil]
    cases hres : (SamplerRegistry.IterateActiveSamplers Visitor.DoCpuProfile
        r.before_cpu_notify r.during_cpu_notify w).result
    · right
      obtain ⟨effects, he⟩ := Iterate_events Visitor.DoCpuProfile
        r.before_cpu_notify r.during_cpu_notify w
      rw [hres] at he
      simp only [Bool.not_false, if_true]
      exact ⟨trivial, [], _, effects, by rw [he]; rfl, NoEmptyReport_nil⟩
    · left
      simp only [Bool.not_true, Bool.false_eq_true, if_false]
      refine ⟨trivial, NoEmptyReport_append (NoEmptyReport_iterate _ _ _ _ hres)
        (NoEmptyReport_sleep _ _), ?_⟩
      rw [actions_append, actions_iterate]; rfl
  · simp only [notifyStep, Bool.and_self, if_true]
    cases hres : (SamplerRegistry.IterateActiveSamplers Visitor.DoCpuProfile
        r.before_cpu_notify r.during_cpu_notify w).result
    · right
      obtain ⟨effects, he⟩ := Iterate_events Visitor.DoCpuProfile
        r.before_cpu_notify r.during_cpu_notify w
      rw [hres] at he
      simp only [Bool.not_false, if_true]
      exact ⟨trivial, [], _, effects, by rw [he]; rfl, NoEmptyReport_nil⟩
    · simp only [Bool.not_true, Bool.false_eq_true, if_false]
      cases hres2 : (SamplerRegistry.IterateActiveSamplers Visitor.DoRuntimeProfile
          r.before_tick_notify r.during_tick_notify
          (SamplerRegistry.IterateActiveSamplers Visitor.DoCpuProfile
            r.before_cpu_notify r.during_cpu_notify w).world).result
      · right
        obtain ⟨effects, he⟩ := Iterate_events Visitor.DoRuntimeProfile
          r.before_tick_notify r.during_tick_notify
          (SamplerRegistry.IterateActiveSamplers Visitor.DoCpuProfile
            r.before_cpu_notify r.during_cpu_notify w).world
        rw [hres2] at he
        simp only [Bool.not_false, if_true]
        refine ⟨trivial, _, _, effects, by rw [he], ?_⟩
        exact NoEmptyReport_append (NoEmptyReport_iterate _ _ _ _ hres) (NoEmptyReport_sleep _ _)
      · left
        simp only [Bool.not_true, Bool.false_eq_true, if_false]
        refine ⟨trivial, ?_, ?_⟩
        · exact NoEmptyReport_append (NoEmptyReport_append (NoEmptyReport_append
            (NoEmptyReport_iterate _ _ _ _ hres) (NoEmptyReport_sleep _ _))
            (NoEmptyReport_iterate _ _ _ _ hres2)) (NoEmptyReport_sleep _ _)
        · simp only [actions_append, actions_iterate]; rfl

theorem notifyStep_handler (self : SignalSender) (cpu rt : Bool) (r : Round) (w : World) :
    HandlerUnchanged w (notifyStep self cpu rt r w).world := by
  have h1 := Iterate_handler Visitor.DoCpuProfile r.before_cpu_notify r.during_cpu_notify w
  have h2 := Iterate_handler Visitor.DoRuntimeProfile r.before_tick_notify
    r.during_tick_notify w
  have h3 := Iterate_handler Visitor.DoRuntimeProfile r.before_tick_notify
    r.during_tick_notify (SamplerRegistry.IterateActiveSamplers Visitor.DoCpuProfile
      r.before_cpu_notify r.during_cpu_notify w).world
  cases cpu <;> cases rt <;>
    simp only [notifyStep, Visit.notCalled, Bool.and_self, Bool.and_true, Bool.and_false,
      Bool.false_eq_true, if_false, if_true, Bool.not_true] <;>
    repeat' split
  all_goals first
    | exact HandlerUnchanged.refl w
    | exact h1
    | exact h2
    | exact h1.trans h3

theorem notifyStep_events_action (self : SignalSender) (cpu rt : Bool) (r : Round) (w : World) :
    ∀ e ∈ (notifyStep self cpu rt r w).events, e.action ≠ none := by
  have key : ∀ l : List Event, (actions l).length = l.length → ∀ e ∈ l, e.action ≠ none := by
    intro l
    induction l with
    | nil => intro _ e he; simp at he
    | cons a l ih =>
      intro hlen e he
      cases ha : a.action with
      | none =>
        have hle : (actions l).length ≤ l.length := List.length_filterMap_le _ _
        simp only [actions, List.filterMap_cons, ha, List.length_cons] at hlen hle
        omega
      | some x =>
        simp only [actions, List.filterMap_cons, ha, List.length_cons,
          Nat.add_right_cancel_iff] at hlen
        rcases List.mem_cons.mp he with h | h
        · rw [h, ha]; simp
        · exact ih hlen e h
  apply key
  have e1 := Iterate_events Visitor.DoCpuProfile r.before_cpu_notify r.during_cpu_notify w
  have e2 := Iterate_events Visitor.DoRuntimeProfile r.before_tick_notify
    r.during_tick_notify w
  have e3 := Iterate_events Visitor.DoRuntimeProfile r.before_tick_notify
    r.during_tick_notify (SamplerRegistry.IterateActiveSamplers Visitor.DoCpuProfile
      r.before_cpu_notify r.during_cpu_notify w).world
  obtain ⟨f1, e1⟩ := e1
  obtain ⟨f2, e2⟩ := e2
  obtain ⟨f3, e3⟩ := e3
  cases cpu <;> cases rt <;>
    simp only [notifyStep, Visit.notCalled, Bool.and_self, Bool.and_true, Bool.and_false,
      Bool.false_eq_true, if_false, if_true, Bool.not_true] <;>
    repeat' split
  all_goals simp only [e1, e2, e3, actions, List.filterMap, Event.action, List.append_assoc,
    List.cons_append, List.nil_append, List.length_cons, List.length_nil]

theorem notifyStep_tickOnly (self : SignalSender) (rt : Bool) (r : Round) (w : World) :
    ∀ e ∈ (notifyStep self false rt r w).events, e.tickOnly := by
  obtain ⟨f2, hf2, e2⟩ := Iterate_tick_events r.before_tick_notify r.during_tick_notify w
  cases rt <;>
    simp only [notifyStep, Visit.notCalled, Bool.and_self, Bool.and_true, Bool.and_false,
      Bool.false_eq_true, if_false, if_true, Bool.not_true] <;>
    repeat' split
  all_goals
    intro e he
    simp only [e2, List.nil_append, List.append_nil, List.cons_append, List.mem_cons,
      List.mem_singleton, List.not_mem_nil, or_false] at he
    first
      | (subst he; trivial)
      | (rcases he with h | h <;> subst h <;> trivial)

theorem RunPass_exited (self : SignalSender) (r : Round) (w : World)
    (h : SamplerRegistry.GetState (applyOps r.before_state w)
      = SamplerRegistry.State.HAS_NO_SAMPLERS) :
    self.RunPass r w =
      { world := applyOps r.before_state w
        events := [Event.GetState SamplerRegistry.State.HAS_NO_SAMPLERS]
        control := Control.exited } := by
  simp only [SignalSender.RunPass, h, if_true]

theorem RunPass_skipped (self : SignalSender) (r : Round) (w : World)
    (h : SamplerRegistry.GetState (applyOps r.before_state w)
      ≠ SamplerRegistry.State.HAS_NO_SAMPLERS)
    (hs : (!decide (SamplerRegistry.GetState (applyOps r.before_state w)
      = SamplerRegistry.State.HAS_CPU_PROFILING_SAMPLERS) && r.suspend) = true) :
    self.RunPass r w =
      { world := (handlerStep (decide (SamplerRegistry.GetState (applyOps r.before_state w)
          = SamplerRegistry.State.HAS_CPU_PROFILING_SAMPLERS)) r.sigaction_ok
          (applyOps r.before_state w)).1
        events := [Event.GetState (SamplerRegistry.GetState (applyOps r.before_state w))] ++
          (handlerStep (decide (SamplerRegistry.GetState (applyOps r.before_state w)
            = SamplerRegistry.State.HAS_CPU_PROFILING_SAMPLERS)) r.sigaction_ok
            (applyOps r.before_state w)).2 ++ [Event.SuspendIfNecessary true]
        control := Control.skipped } := by
  simp only [SignalSender.RunPass, h, if_false, hs, if_true]

theorem RunPass_notified (self : SignalSender) (r : Round) (w : World)
    (h : SamplerRegistry.GetState (applyOps r.before_state w)
      ≠ SamplerRegistry.State.HAS_NO_SAMPLERS)
    (hs : ¬ (!decide (SamplerRegistry.GetState (applyOps r.before_state w)
      = SamplerRegistry.State.HAS_CPU_PROFILING_SAMPLERS) && r.suspend) = true) :
    self.RunPass r w =
      { world := (notifyStep self (decide (SamplerRegistry.GetState (applyOps r.before_state w)
            = SamplerRegistry.State.HAS_CPU_PROFILING_SAMPLERS)) r.runtime_profiler_enabled r
          (handlerStep (decide (SamplerRegistry.GetState (applyOps r.before_state w)
            = SamplerRegistry.State.HAS_CPU_PROFILING_SAMPLERS)) r.sigaction_ok
            (applyOps r.before_state w)).1).world
        events := [Event.GetState (SamplerRegistry.GetState (applyOps r.before_state w))] ++
          (handlerStep (decide (SamplerRegistry.GetState (applyOps r.before_state w)
            = SamplerRegistry.State.HAS_CPU_PROFILING_SAMPLERS)) r.sigaction_ok
            (applyOps r.before_state w)).2 ++
          (if decide (SamplerRegistry.GetState (applyOps r.before_state w)
              = SamplerRegistry.State.HAS_CPU_PROFILING_SAMPLERS) = true then []
            else [Event.SuspendIfNecessary false]) ++
          (notifyStep self (decide (SamplerRegistry.GetState (applyOps r.before_state w)
            = SamplerRegistry.State.HAS_CPU_PROFILING_SAMPLERS)) r.runtime_profiler_enabled r
          (handlerStep (decide (SamplerRegistry.GetState (applyOps r.before_state w)
            = SamplerRegistry.State.HAS_CPU_PROFILING_SAMPLERS)) r.sigaction_ok
            (applyOps r.before_state w)).1).events
        control := (notifyStep self (decide (SamplerRegistry.GetState (applyOps r.before_state w)
            = SamplerRegistry.State.HAS_CPU_PROFILING_SAMPLERS)) r.runtime_profiler_enabled r
          (handlerStep (decide (SamplerRegistry.GetState (applyOps r.before_state w)
            = SamplerRegistry.State.HAS_CPU_PROFILING_SAMPLERS)) r.sigaction_ok
            (applyOps r.before_state w)).1).control } := by
  simp only [SignalSender.RunPass, h, if_false, hs, Bool.false_eq_true]

theorem Run_cons (self : SignalSender) (r : Round) (rs : List Round) (w : World) :
    self.Run (r :: rs) w =
      if (self.RunPass r w).control = Control.next ∨
          (self.RunPass r w).control = Control.skipped then
        { world := (self.Run rs (self.RunPass r w).world).world
          events := (self.RunPass r w).events ++ (self.Run rs (self.RunPass r w).world).events
          finished := (self.Run rs (self.RunPass r w).world).finished }
      else
        { world := (self.RunPass r w).world
          events := (self.RunPass r w).events
          finished := true } := by
  simp only [SignalSender.Run]
  split <;> simp_all

theorem handlerStep_of_unchanged (cpu ok : Bool) {w w1 : World} (h : HandlerUnchanged w w1) :
    (handlerStep cpu ok w1).2 = (handlerStep cpu ok w).2 ∧
    HandlerUnchanged (handlerStep cpu ok w).1 (handlerStep cpu ok w1).1 := by
  obtain ⟨h1, h2, h3⟩ := h
  unfold handlerStep
  rw [h1]
  cases cpu <;> cases hi : w.signal_handler_installed_ <;>
    simp [HandlerUnchanged, InstallSignalHandler, RestoreSignalHandler, h1, h2, h3, hi]
  cases ok <;> simp [h1, h2, h3]

/-- The shape of a pass that enters the loop body: the handler part of the state
after the pass is the one the install/restore step produced, and the events are
the registry query, the events of the install/restore step, and then only
rate-limiter queries, notifications and sleeps. -/
theorem RunPass_entered (self : SignalSender) (r : Round) (w : World)
    (h : SamplerRegistry.GetState (applyOps r.before_state w)
      ≠ SamplerRegistry.State.HAS_NO_SAMPLERS) :
    HandlerUnchanged
      (handlerStep (decide (SamplerRegistry.GetState (applyOps r.before_state w)
        = SamplerRegistry.State.HAS_CPU_PROFILING_SAMPLERS)) r.sigaction_ok w).1
      (self.RunPass r w).world ∧
    ∃ tail, (self.RunPass r w).events =
      Event.GetState (SamplerRegistry.GetState (applyOps r.before_state w)) ::
        ((handlerStep (decide (SamplerRegistry.GetState (applyOps r.before_state w)
          = SamplerRegistry.State.HAS_CPU_PROFILING_SAMPLERS)) r.sigaction_ok w).2 ++ tail) ∧
      ∀ e ∈ tail, (∃ b, e = Event.SuspendIfNecessary b) ∨ e.action ≠ none := by
  have hw1 := applyOps_handler r.before_state w
  obtain ⟨hev, hun⟩ := handlerStep_of_unchanged
    (decide (SamplerRegistry.GetState (applyOps r.before_state w)
      = SamplerRegistry.State.HAS_CPU_PROFILING_SAMPLERS)) r.sigaction_ok hw1
  by_cases hs : (!decide (SamplerRegistry.GetState (applyOps r.before_state w)
      = SamplerRegistry.State.HAS_CPU_PROFILING_SAMPLERS) && r.suspend) = true
  · rw [RunPass_skipped self r w h hs]
    refine ⟨hun, [Event.SuspendIfNecessary true], ?_, ?_⟩
    · simp only [hev, List.singleton_append, List.cons_append, List.nil_append]
    · intro e he
      left
      exact ⟨true, by simpa using he⟩
  · rw [RunPass_notified self r w h hs]
    refine ⟨hun.trans (notifyStep_handler _ _ _ _ _),
      (if decide (SamplerRegistry.GetState (applyOps r.before_state w)
          = SamplerRegistry.State.HAS_CPU_PROFILING_SAMPLERS) = true then []
        else [Event.SuspendIfNecessary false]) ++
      (notifyStep self (decide (SamplerRegistry.GetState (applyOps r.before_state w)
          = SamplerRegistry.State.HAS_CPU_PROFILING_SAMPLERS)) r.runtime_profiler_enabled r
        (handlerStep (decide (SamplerRegistry.GetState (applyOps r.before_state w)
          = SamplerRegistry.State.HAS_CPU_PROFILING_SAMPLERS)) r.sigaction_ok
          (applyOps r.before_state w)).1).events, ?_, ?_⟩
    · simp only [hev, List.singleton_append, List.cons_append, List.nil_append,
        List.append_assoc]
    · intro e he
      rcases List.mem_append.mp he with h1 | h1
      · left
        split at h1
        · simp at h1
        · exact ⟨false, by simpa using h1⟩
      · right
        exact notifyStep_events_action _ _ _ _ _ e h1

theorem RunPass_handler_events (self : SignalSender) (r : Round) (w : World)
    (h : SamplerRegistry.GetState (applyOps r.before_state w)
      ≠ SamplerRegistry.State.HAS_NO_SAMPLERS) (e : Event)
    (he : e = Event.RestoreSignalHandler ∨ ∃ ok, e = Event.InstallSignalHandler ok) :
    e ∈ (self.RunPass r w).events ↔
    e ∈ (handlerStep (decide (SamplerRegistry.GetState (applyOps r.before_state w)
        = SamplerRegistry.State.HAS_CPU_PROFILING_SAMPLERS)) r.sigaction_ok w).2 := by
  obtain ⟨_, tail, hev, htail⟩ := RunPass_entered self r w h
  rw [hev]
  have hnot : e ∉ tail := by
    intro hmem
    rcases htail e hmem with ⟨b, hb⟩ | hact
    · rcases he with h1 | ⟨ok, h1⟩ <;> rw [h1] at hb <;> cases hb
    · rcases he with h1 | ⟨ok, h1⟩ <;> rw [h1] at hact <;> exact hact rfl
  have hne : e ≠ Event.GetState (SamplerRegistry.GetState (applyOps r.before_state w)) := by
    rcases he with h1 | ⟨ok, h1⟩ <;> rw [h1] <;> intro h2 <;> cases h2
  simp only [List.mem_cons, List.mem_append, hne, hnot, false_or, or_false]

/-- C9: in every pass of `SignalSender::Run` that enters the loop body (registry
state not `HAS_NO_SAMPLERS`): if the state is `HAS_CPU_PROFILING_SAMPLERS` and
the handler is not installed, `InstallSignalHandler` is called, the flag becomes
true exactly when `sigaction` succeeds, and then the previous SIGPROF handler
is saved in `old_signal_handler_` (a failed call changes neither handler); if
the state is not `HAS_CPU_PROFILING_SAMPLERS` and the handler is installed,
`RestoreSignalHandler` reinstates the saved handler and clears the flag; in the
two remaining cases neither is called and handler, saved handler and flag are
unchanged.  Installing and then restoring leaves the SIGPROF handler that was in
effect before the install. -/
theorem C9_install_restore_step (self : SignalSender) (r : Round) (w : World)
    (hentered : SamplerRegistry.GetState (applyOps r.before_state w)
      ≠ SamplerRegistry.State.HAS_NO_SAMPLERS) :
    (SamplerRegistry.GetState (applyOps r.before_state w)
        = SamplerRegistry.State.HAS_CPU_PROFILING_SAMPLERS ∧
      w.signal_handler_installed_ = false →
        Event.InstallSignalHandler r.sigaction_ok ∈ (self.RunPass r w).events ∧
        Event.RestoreSignalHandler ∉ (self.RunPass r w).events ∧
        (self.RunPass r w).world.signal_handler_installed_ = r.sigaction_ok ∧
        (r.sigaction_ok = true →
          (self.RunPass r w).world.old_signal_handler_ = w.sigprof ∧
          (self.RunPass r w).world.sigprof = SigAction.ProfilerSignalHandler) ∧
        (r.sigaction_ok = false →
          (self.RunPass r w).world.old_signal_handler_ = w.old_signal_handler_ ∧
          (self.RunPass r w).world.sigprof = w.sigprof)) ∧
    (SamplerRegistry.GetState (applyOps r.before_state w)
        ≠ SamplerRegistry.State.HAS_CPU_PROFILING_SAMPLERS ∧
      w.signal_handler_installed_ = true →
        Event.RestoreSignalHandler ∈ (self.RunPass r w).events ∧
        (∀ ok, Event.InstallSignalHandler ok ∉ (self.RunPass r w).events) ∧
        (self.RunPass r w).world.sigprof = w.old_signal_handler_ ∧
        (self.RunPass r w).world.signal_handler_installed_ = false) ∧
    ((SamplerRegistry.GetState (applyOps r.before_state w)
          = SamplerRegistry.State.HAS_CPU_PROFILING_SAMPLERS ∧
        w.signal_handler_installed_ = true) ∨
      (SamplerRegistry.GetState (applyOps r.before_state w)
          ≠ SamplerRegistry.State.HAS_CPU_PROFILING_SAMPLERS ∧
        w.signal_handler_installed_ = false) →
        HandlerUnchanged w (self.RunPass r w).world ∧
        Event.RestoreSignalHandler ∉ (self.RunPass r w).events ∧
        (∀ ok, Event.InstallSignalHandler ok ∉ (self.RunPass r w).events)) ∧
    (∀ ok, (RestoreSignalHandler (InstallSignalHandler ok w)).sigprof = w.sigprof) := by
  obtain ⟨hworld, _⟩ := RunPass_entered self r w hentered
  have hR := RunPass_handler_events self r w hentered Event.RestoreSignalHandler (Or.inl rfl)
  have hI := fun ok => RunPass_handler_events self r w hentered
    (Event.InstallSignalHandler ok) (Or.inr ⟨ok, rfl⟩)
  obtain ⟨hw1, hw2, hw3⟩ := hworld
  refine ⟨?_, ?_, ?_, ?_⟩
  · rintro ⟨hcpu, hinst⟩
    simp only [hcpu, decide_True, handlerStep, hinst, Bool.not_false, Bool.and_self,
      if_true] at hR hI hw1 hw2 hw3
    refine ⟨(hI _).mpr (by simp), fun hmem => by simpa using hR.mp hmem, ?_, ?_, ?_⟩
    · rw [hw1]; cases r.sigaction_ok <;> rfl
    · intro hok
      rw [hw2, hw3, hok]
      exact ⟨rfl, rfl⟩
    · intro hok
      rw [hw2, hw3, hok]
      exact ⟨rfl, rfl⟩
  · rintro ⟨hcpu, hinst⟩
    simp only [hcpu, decide_False, handlerStep, hinst, Bool.not_true, Bool.and_false,
      Bool.false_eq_true, if_false, Bool.not_false, Bool.and_self, if_true]
      at hR hI hw1 hw2 hw3
    refine ⟨hR.mpr (by simp), fun ok hmem => by simpa using (hI ok).mp hmem, ?_, ?_⟩
    · rw [hw2]; simp [RestoreSignalHandler, hinst]
    · rw [hw1]; simp [RestoreSignalHandler, hinst]
  · rintro (⟨hcpu, hinst⟩ | ⟨hcpu, hinst⟩)
    · simp only [hcpu, decide_True, handlerStep, hinst, Bool.not_true, Bool.and_false,
        Bool.false_eq_true, if_false, Bool.not_false, Bool.and_true] at hR hI hw1 hw2 hw3
      exact ⟨⟨hw1.trans hinst.symm, hw2, hw3⟩, fun hmem => by simpa using hR.mp hmem,
        fun ok hmem => by simpa using (hI ok).mp hmem⟩
    · simp only [hcpu, decide_False, handlerStep, hinst, Bool.not_true, Bool.and_false,
        Bool.false_eq_true, if_false, Bool.not_false, Bool.and_true, Bool.false_and]
        at hR hI hw1 hw2 hw3
      exact ⟨⟨hw1.trans hinst.symm, hw2, hw3⟩, fun hmem => by simpa using hR.mp hmem,
        fun ok hmem => by simpa using (hI ok).mp hmem⟩
  · intro ok
    cases ok <;> cases hi : w.signal_handler_installed_ <;>
      simp [RestoreSignalHandler, InstallSignalHandler, hi]

/-- C9, at the first pass of the dispatcher started for sampler 0, which is
profiling, with no handler installed yet and a `sigaction` that succeeds: the
handler is installed, the flag is set and the handler of the embedding program
(`user 7`) is saved. -/
theorem C9_install_restore_step_witness :
    SamplerRegistry.GetState (applyOps quietRound.before_state oneProfiling)
      ≠ SamplerRegistry.State.HAS_NO_SAMPLERS ∧
    Event.InstallSignalHandler true ∈ (exampleSender.RunPass quietRound oneProfiling).events ∧
    (exampleSender.RunPass quietRound oneProfiling).world.signal_handler_installed_ = true ∧
    (exampleSender.RunPass quietRound oneProfiling).world.old_signal_handler_
      = SigAction.user 7 ∧
    (exampleSender.RunPass quietRound oneProfiling).world.sigprof
      = SigAction.ProfilerSignalHandler :=
  have h := (C9_install_restore_step exampleSender quietRound oneProfiling (by decide)).1
    ⟨by decide, by decide⟩
  ⟨by decide, h.1, h.2.2.1, (h.2.2.2.1 rfl).1, (h.2.2.2.1 rfl).2⟩

theorem handlerStep_actions (cpu ok : Bool) (w : World) :
    actions (handlerStep cpu ok w).2 = [] := by
  unfold handlerStep
  split
  · rfl
  · split <;> rfl

theorem expectedActions_facts (cpu rt : Bool) :
    (expectedActions cpu rt).count Action.NotifyCpuSamplers = (if cpu = true then 1 else 0) ∧
    (expectedActions cpu rt).count Action.NotifyTickWatchers = (if rt = true then 1 else 0) ∧
    ¬ [Action.NotifyTickWatchers, Action.NotifyCpuSamplers].Sublist (expectedActions cpu rt) := by
  cases cpu <;> cases rt <;> decide

/-- C10: in every pass of `SignalSender::Run` that enters the loop body, is not
skipped by the rate limiter and in which no notify step reports an empty
registry, the ordered notifications and sleeps are determined by the two flags
(cpu: the state is `HAS_CPU_PROFILING_SAMPLERS`; tick:
`RuntimeProfiler::IsEnabled()`): both set: notify CPU samplers, sleep
HALF_INTERVAL, notify tick watchers, sleep HALF_INTERVAL; only cpu: notify CPU
samplers, sleep FULL_INTERVAL; only tick: notify tick watchers, sleep
FULL_INTERVAL; neither: sleep FULL_INTERVAL.  Each enabled class is notified
exactly once, a class that is not enabled is not notified, no CPU notification
follows a tick notification, and the pass reaches the end of the loop body. -/
theorem C10_pass_actions (self : SignalSender) (r : Round) (w : World)
    (hentered : SamplerRegistry.GetState (applyOps r.before_state w)
      ≠ SamplerRegistry.State.HAS_NO_SAMPLERS)
    (hnoskip : Event.SuspendIfNecessary true ∉ (self.RunPass r w).events)
    (hnonempty : ∀ visitor effects,
      Event.IterateActiveSamplers visitor effects false ∉ (self.RunPass r w).events) :
    actions (self.RunPass r w).events =
      expectedActions (decide (SamplerRegistry.GetState (applyOps r.before_state w)
        = SamplerRegistry.State.HAS_CPU_PROFILING_SAMPLERS)) r.runtime_profiler_enabled ∧
    (actions (self.RunPass r w).events).count Action.NotifyCpuSamplers =
      (if SamplerRegistry.GetState (applyOps r.before_state w)
        = SamplerRegistry.State.HAS_CPU_PROFILING_SAMPLERS then 1 else 0) ∧
    (actions (self.RunPass r w).events).count Action.NotifyTickWatchers =
      (if r.runtime_profiler_enabled = true then 1 else 0) ∧
    ¬ [Action.NotifyTickWatchers, Action.NotifyCpuSamplers].Sublist
      (actions (self.RunPass r w).events) ∧
    (self.RunPass r w).control = Control.next := by
  by_cases hs : (!decide (SamplerRegistry.GetState (applyOps r.before_state w)
      = SamplerRegistry.State.HAS_CPU_PROFILING_SAMPLERS) && r.suspend) = true
  · exfalso
    apply hnoskip
    rw [RunPass_skipped self r w hentered hs]
    simp
  · have hpass := RunPass_notified self r w hentered hs
    rw [hpass] at hnonempty
    rw [hpass]
    simp only at hnonempty ⊢
    have hact : ∀ n : List Event,
        actions ([Event.GetState (SamplerRegistry.GetState (applyOps r.before_state w))] ++
          (handlerStep (decide (SamplerRegistry.GetState (applyOps r.before_state w)
            = SamplerRegistry.State.HAS_CPU_PROFILING_SAMPLERS)) r.sigaction_ok
            (applyOps r.before_state w)).2 ++
          (if decide (SamplerRegistry.GetState (applyOps r.before_state w)
              = SamplerRegistry.State.HAS_CPU_PROFILING_SAMPLERS) = true then []
            else [Event.SuspendIfNecessary false]) ++ n) = actions n := by
      intro n
      rw [actions_append, actions_append, actions_append, handlerStep_actions]
      split <;> rfl
    rw [hact]
    rcases notifyStep_cases self
      (decide (SamplerRegistry.GetState (applyOps r.before_state w)
        = SamplerRegistry.State.HAS_CPU_PROFILING_SAMPLERS)) r.runtime_profiler_enabled r
      (handlerStep (decide (SamplerRegistry.GetState (applyOps r.before_state w)
        = SamplerRegistry.State.HAS_CPU_PROFILING_SAMPLERS)) r.sigaction_ok
        (applyOps r.before_state w)).1 with ⟨hc, _, ha⟩ | ⟨_, pre, v, effects, he, _⟩
    · have hf := expectedActions_facts
        (decide (SamplerRegistry.GetState (applyOps r.before_state w)
          = SamplerRegistry.State.HAS_CPU_PROFILING_SAMPLERS)) r.runtime_profiler_enabled
      rw [ha]
      refine ⟨rfl, ?_, hf.2.1, hf.2.2, hc⟩
      rw [hf.1]
      simp only [decide_eq_true_eq]
    · exfalso
      apply hnonempty v effects
      rw [he]
      simp

/-- C10, at a pass of the dispatcher of the profiling sampler 0 with the runtime
profiler enabled and nothing happening concurrently: notify CPU samplers, sleep
half, notify tick watchers, sleep half. -/
theorem C10_pass_actions_witness :
    actions (exampleSender.RunPass quietRound oneProfiling).events =
      [Action.NotifyCpuSamplers, Action.Sleep SleepInterval.HALF_INTERVAL,
       Action.NotifyTickWatchers, Action.Sleep SleepInterval.HALF_INTERVAL] :=
  (C10_pass_actions exampleSender quietRound oneProfiling (by decide) (by decide)
    (by
      intro visitor effects hmem
      have hev : (exampleSender.RunPass quietRound oneProfiling).events =
          [Event.GetState SamplerRegistry.State.HAS_CPU_PROFILING_SAMPLERS,
           Event.InstallSignalHandler true,
           Event.IterateActiveSamplers Visitor.DoCpuProfile
             [Effect.pthread_kill_SIGPROF 100] true,
           Event.Sleep SleepInterval.HALF_INTERVAL 4950,
           Event.IterateActiveSamplers Visitor.DoRuntimeProfile [Effect.NotifyTick 0] true,
           Event.Sleep SleepInterval.HALF_INTERVAL 4950] := by decide
      rw [hev] at hmem
      simp at hmem)).1

theorem handlerStep_noEmptyReport (cpu ok : Bool) (w : World) :
    NoEmptyReport (handlerStep cpu ok w).2 := by
  intro v f hmem
  unfold handlerStep at hmem
  split at hmem
  · simp at hmem
  · split at hmem <;> simp at hmem

theorem handlerStep_installed (cpu ok : Bool) (w : World) :
    (handlerStep cpu ok w).1.signal_handler_installed_ =
      (cpu && (w.signal_handler_installed_ || ok)) := by
  cases cpu <;> cases ok <;> cases hi : w.signal_handler_installed_ <;>
    simp [handlerStep, InstallSignalHandler, RestoreSignalHandler, hi]

/-- C5, as stated, fails: `Run` returns without calling `RestoreSignalHandler`.
Sampler 0 is registered and profiling and no handler is installed; the pass
installs the handler, the `Stop` of another thread then empties the registry,
`IterateActiveSamplers` returns false and `Run` returns with
`signal_handler_installed_` still true and the profiler's handler still in
effect instead of the handler of the embedding program. -/
theorem C5_counterexample :
    Event.IterateActiveSamplers Visitor.DoCpuProfile [] false
      ∈ (exampleSender.Run [stopRound, quietRound] oneProfiling).events ∧
    (exampleSender.Run [stopRound, quietRound] oneProfiling).finished = true ∧
    (exampleSender.Run [stopRound, quietRound] oneProfiling).world.signal_handler_installed_
      = true ∧
    (exampleSender.Run [stopRound, quietRound] oneProfiling).world.sigprof
      = SigAction.ProfilerSignalHandler ∧
    oneProfiling.sigprof = SigAction.user 7 := by
  refine ⟨by decide, by decide, by decide, by decide, by decide⟩

/-- C5 (amended): if a notify step of a pass of `SignalSender::Run` reports that
the registry went empty, `Run` terminates with that pass: the report is the last
event of the pass and of the run (no further notification, sleep or handler
change, whatever the rest of the schedule), and it is the first such report.
`Run` does not restore the handler on this path: the handler, the saved handler
and `signal_handler_installed_` are left as the install/restore step of the pass
made them, so the flag is true on return exactly when the pass saw CPU
profiling and the handler was installed or `sigaction` succeeded. -/
theorem C5_empty_report_ends_run (self : SignalSender) (r : Round) (rs : List Round)
    (w : World)
    (hempty : ∃ visitor effects,
      Event.IterateActiveSamplers visitor effects false ∈ (self.RunPass r w).events) :
    (self.Run (r :: rs) w).finished = true ∧
    (self.Run (r :: rs) w).events = (self.RunPass r w).events ∧
    (∃ pre visitor effects,
      (self.RunPass r w).events = pre ++ [Event.IterateActiveSamplers visitor effects false] ∧
      ∀ v f, Event.IterateActiveSamplers v f false ∉ pre) ∧
    HandlerUnchanged
      (handlerStep (decide (SamplerRegistry.GetState (applyOps r.before_state w)
        = SamplerRegistry.State.HAS_CPU_PROFILING_SAMPLERS)) r.sigaction_ok w).1
      (self.Run (r :: rs) w).world ∧
    (self.Run (r :: rs) w).world.signal_handler_installed_ =
      (decide (SamplerRegistry.GetState (applyOps r.before_state w)
          = SamplerRegistry.State.HAS_CPU_PROFILING_SAMPLERS) &&
        (w.signal_handler_installed_ || r.sigaction_ok)) := by
  obtain ⟨visitor, effects, hmem⟩ := hempty
  have hentered : SamplerRegistry.GetState (applyOps r.before_state w)
      ≠ SamplerRegistry.State.HAS_NO_SAMPLERS := by
    intro h0
    rw [RunPass_exited self r w h0] at hmem
    simp at hmem
  have hw1 := applyOps_handler r.before_state w
  have hs : ¬ (!decide (SamplerRegistry.GetState (applyOps r.before_state w)
      = SamplerRegistry.State.HAS_CPU_PROFILING_SAMPLERS) && r.suspend) = true := by
    intro hs
    rw [RunPass_skipped self r w hentered hs] at hmem
    simp only [List.mem_append, List.mem_singleton, reduceCtorEq, or_false, false_or] at hmem
    exact handlerStep_noEmptyReport _ _ _ visitor effects hmem
  have hpass := RunPass_notified self r w hentered hs
  have hpre : NoEmptyReport
      ([Event.GetState (SamplerRegistry.GetState (applyOps r.before_state w))] ++
        (handlerStep (decide (SamplerRegistry.GetState (applyOps r.before_state w)
          = SamplerRegistry.State.HAS_CPU_PROFILING_SAMPLERS)) r.sigaction_ok
          (applyOps r.before_state w)).2 ++
        (if decide (SamplerRegistry.GetState (applyOps r.before_state w)
            = SamplerRegistry.State.HAS_CPU_PROFILING_SAMPLERS) = true then []
          else [Event.SuspendIfNecessary false])) := by
    refine NoEmptyReport_append (NoEmptyReport_append ?_ (handlerStep_noEmptyReport _ _ _)) ?_
    · intro v f h; simp at h
    · intro v f h; split at h <;> simp at h
  have hworld := (RunPass_entered self r w hentered).1
  rcases notifyStep_cases self
    (decide (SamplerRegistry.GetState (applyOps r.before_state w)
      = SamplerRegistry.State.HAS_CPU_PROFILING_SAMPLERS)) r.runtime_profiler_enabled r
    (handlerStep (decide (SamplerRegistry.GetState (applyOps r.before_state w)
      = SamplerRegistry.State.HAS_CPU_PROFILING_SAMPLERS)) r.sigaction_ok
      (applyOps r.before_state w)).1 with ⟨_, hno, _⟩ | ⟨hc, pre, v, f, he, hnopre⟩
  · exfalso
    rw [hpass] at hmem
    exact NoEmptyReport_append hpre hno visitor effects hmem
  · have hctl : (self.RunPass r w).control = Control.returned := by rw [hpass]; exact hc
    have hrun := Run_cons self r rs w
    rw [if_neg (by rw [hctl]; simp)] at hrun
    rw [hrun]
    refine ⟨rfl, rfl, ⟨_, v, f, ?_, NoEmptyReport_append hpre hnopre⟩, hworld, ?_⟩
    · rw [hpass]
      simp only [he, List.append_assoc]
    · show (self.RunPass r w).world.signal_handler_installed_ = _
      rw [hworld.1, handlerStep_installed]

/-- C5 (amended), at the run of the counterexample: the run ends with the pass in
which the registry was found empty, and the flag is still true. -/
theorem C5_empty_report_ends_run_witness :
    (exampleSender.Run [stopRound, quietRound] oneProfiling).finished = true ∧
    (exampleSender.Run [stopRound, quietRound] oneProfiling).events
      = (exampleSender.RunPass stopRound oneProfiling).events ∧
    (exampleSender.Run [stopRound, quietRound] oneProfiling).world.signal_handler_installed_
      = true :=
  have h := C5_empty_report_ends_run exampleSender stopRound [quietRound] oneProfiling
    ⟨Visitor.DoCpuProfile, [], by decide⟩
  ⟨h.1, h.2.1, h.2.2.2.2.trans (by decide)⟩

theorem RunPass_GetState_mem (self : SignalSender) (r : Round) (w : World) :
    Event.GetState (SamplerRegistry.GetState (applyOps r.before_state w))
      ∈ (self.RunPass r w).events := by
  by_cases h : SamplerRegistry.GetState (applyOps r.before_state w)
      = SamplerRegistry.State.HAS_NO_SAMPLERS
  · rw [RunPass_exited self r w h, h]; simp
  · obtain ⟨_, tail, hev, _⟩ := RunPass_entered self r w h
    rw [hev]; simp

theorem RunPass_tickOnly (self : SignalSender) (r : Round) (w : World)
    (h0 : w.signal_handler_installed_ = false)
    (hst : SamplerRegistry.GetState (applyOps r.before_state w)
      ≠ SamplerRegistry.State.HAS_CPU_PROFILING_SAMPLERS) :
    HandlerUnchanged w (self.RunPass r w).world ∧
    ∀ e ∈ (self.RunPass r w).events, e.tickOnly := by
  have hw1 := applyOps_handler r.before_state w
  have h1 : (applyOps r.before_state w).signal_handler_installed_ = false := hw1.1.trans h0
  have hstep : handlerStep false r.sigaction_ok (applyOps r.before_state w)
      = (applyOps r.before_state w, []) := by
    simp [handlerStep, h1]
  by_cases h : SamplerRegistry.GetState (applyOps r.before_state w)
      = SamplerRegistry.State.HAS_NO_SAMPLERS
  · rw [RunPass_exited self r w h]
    refine ⟨hw1, ?_⟩
    intro e he
    simp only [List.mem_singleton] at he
    subst he
    simp [Event.tickOnly]
  · by_cases hs : (!decide (SamplerRegistry.GetState (applyOps r.before_state w)
        = SamplerRegistry.State.HAS_CPU_PROFILING_SAMPLERS) && r.suspend) = true
    · rw [RunPass_skipped self r w h hs]
      simp only [hst, decide_False, hstep]
      refine ⟨hw1, ?_⟩
      intro e he
      simp only [List.append_nil, List.singleton_append, List.mem_cons, List.mem_singleton,
        List.not_mem_nil, or_false] at he
      rcases he with he | he <;> subst he
      · exact hst
      · trivial
    · rw [RunPass_notified self r w h hs]
      simp only [hst, decide_False, hstep, Bool.false_eq_true, if_false]
      refine ⟨hw1.trans (notifyStep_handler _ _ _ _ _), ?_⟩
      intro e he
      simp only [List.append_nil, List.singleton_append, List.cons_append, List.nil_append,
        List.mem_cons] at he
      rcases he with he | he | he
      · subst he; exact hst
      · subst he; trivial
      · exact notifyStep_tickOnly _ _ _ _ e he

theorem Run_tickOnly (self : SignalSender) (rounds : List Round) : ∀ w : World,
    w.signal_handler_installed_ = false →
    Event.GetState SamplerRegistry.State.HAS_CPU_PROFILING_SAMPLERS
      ∉ (self.Run rounds w).events →
    HandlerUnchanged w (self.Run rounds w).world ∧
    ∀ e ∈ (self.Run rounds w).events, e.tickOnly := by
  induction rounds with
  | nil =>
    intro w _ _
    exact ⟨HandlerUnchanged.refl w, by intro e he; simp [SignalSender.Run] at he⟩
  | cons r rs ih =>
    intro w h0 hstate
    have hrun := Run_cons self r rs w
    have hget := RunPass_GetState_mem self r w
    by_cases hc : (self.RunPass r w).control = Control.next ∨
        (self.RunPass r w).control = Control.skipped
    · rw [if_pos hc] at hrun
      rw [hrun] at hstate ⊢
      simp only [List.mem_append, not_or] at hstate
      have hst : SamplerRegistry.GetState (applyOps r.before_state w)
          ≠ SamplerRegistry.State.HAS_CPU_PROFILING_SAMPLERS := by
        intro heq; rw [heq] at hget; exact hstate.1 hget
      obtain ⟨hp1, hp2⟩ := RunPass_tickOnly self r w h0 hst
      obtain ⟨hr1, hr2⟩ := ih (self.RunPass r w).world (hp1.1.trans h0) hstate.2
      refine ⟨hp1.trans hr1, ?_⟩
      intro e he
      rcases List.mem_append.mp he with he | he
      · exact hp2 e he
      · exact hr2 e he
    · rw [if_neg hc] at hrun
      rw [hrun] at hstate ⊢
      have hst : SamplerRegistry.GetState (applyOps r.before_state w)
          ≠ SamplerRegistry.State.HAS_CPU_PROFILING_SAMPLERS := by
        intro heq; rw [heq] at hget; exact hstate hget
      exact RunPass_tickOnly self r w h0 hst

theorem Run_take_events (self : SignalSender) (rounds : List Round) : ∀ (n : Nat) (w : World),
    ∀ e ∈ (self.Run (rounds.take n) w).events, e ∈ (self.Run rounds w).events := by
  induction rounds with
  | nil => intro n w e he; simpa using he
  | cons r rs ih =>
    intro n w e he
    cases n with
    | zero => simp [SignalSender.Run] at he
    | succ m =>
      rw [List.take_succ_cons, Run_cons] at he
      rw [Run_cons]
      by_cases hc : (self.RunPass r w).control = Control.next ∨
          (self.RunPass r w).control = Control.skipped
      · rw [if_pos hc] at he ⊢
        rcases List.mem_append.mp he with h | h
        · exact List.mem_append_left _ h
        · exact List.mem_append_right _ (ih m _ e h)
      · rw [if_neg hc] at he ⊢
        exact he

/-- C4: for every execution of the dispatcher that starts with
`signal_handler_installed_ == false` and in which the registry state is never
`HAS_CPU_PROFILING_SAMPLERS`, the handler is never installed (no call of
`InstallSignalHandler`; the flag is false after every number of passes and at
the end; the SIGPROF handler of the process is the original one), no SIGPROF is
sent, and every notification is a run of `DoRuntimeProfile` whose only effects
are `NotifyTick` calls. -/
theorem C4_tick_only_never_installs_handler (self : SignalSender) (rounds : List Round)
    (w : World)
    (h0 : w.signal_handler_installed_ = false)
    (hstate : Event.GetState SamplerRegistry.State.HAS_CPU_PROFILING_SAMPLERS
      ∉ (self.Run rounds w).events) :
    (∀ n, (self.Run (rounds.take n) w).world.signal_handler_installed_ = false) ∧
    (self.Run rounds w).world.signal_handler_installed_ = false ∧
    (self.Run rounds w).world.sigprof = w.sigprof ∧
    (∀ ok, Event.InstallSignalHandler ok ∉ (self.Run rounds w).events) ∧
    (∀ visitor effects result,
      Event.IterateActiveSamplers visitor effects result ∈ (self.Run rounds w).events →
        visitor = Visitor.DoRuntimeProfile ∧
        (∀ tid, Effect.pthread_kill_SIGPROF tid ∉ effects) ∧
        ∀ eff ∈ effects, ∃ s, eff = Effect.NotifyTick s) := by
  obtain ⟨hw, hev⟩ := Run_tickOnly self rounds w h0 hstate
  refine ⟨?_, hw.1.trans h0, hw.2.1, ?_, ?_⟩
  · intro n
    have hn := Run_tickOnly self (rounds.take n) w h0
      (fun hmem => hstate (Run_take_events self rounds n w _ hmem))
    exact hn.1.1.trans h0
  · intro ok hmem
    exact hev _ hmem
  · intro visitor effects result hmem
    obtain ⟨hv, heff⟩ := hev _ hmem
    refine ⟨hv, ?_, heff⟩
    intro tid htid
    obtain ⟨s, hs⟩ := heff _ htid
    cases hs

/-- C4, at two passes of the dispatcher of sampler 0, which is not profiling:
the handler is not installed and the only notifications are ticks. -/
theorem C4_tick_only_witness :
    oneStarted.signal_handler_installed_ = false ∧
    (exampleSender.Run [quietRound, quietRound] oneStarted).world.signal_handler_installed_
      = false ∧
    Event.InstallSignalHandler true
      ∉ (exampleSender.Run [quietRound, quietRound] oneStarted).events ∧
    Event.IterateActiveSamplers Visitor.DoRuntimeProfile [Effect.NotifyTick 0] true
      ∈ (exampleSender.Run [quietRound, quietRound] oneStarted).events :=
  have h := C4_tick_only_never_installs_handler exampleSender [quietRound, quietRound]
    oneStarted (by decide) (by decide)
  ⟨by decide, h.2.1, h.2.2.2.1 true, by decide⟩

end Dispatcher

section RateLimiter

theorem handlerStep_no_suspend (cpu ok : Bool) (w : World) (b : Bool) :
    Event.SuspendIfNecessary b ∉ (handlerStep cpu ok w).2 := by
  intro hmem
  unfold handlerStep at hmem
  split at hmem
  · simp at hmem
  · split at hmem <;> simp at hmem

theorem RunPass_events_head (self : SignalSender) (r : Round) (w : World) :
    ∃ tail, (self.RunPass r w).events =
      Event.GetState (SamplerRegistry.GetState (applyOps r.before_state w)) :: tail := by
  by_cases h : SamplerRegistry.GetState (applyOps r.before_state w)
      = SamplerRegistry.State.HAS_NO_SAMPLERS
  · rw [RunPass_exited self r w h, h]
    exact ⟨[], rfl⟩
  · obtain ⟨_, tail, hev, _⟩ := RunPass_entered self r w h
    exact ⟨_, hev⟩

theorem RunPass_suspend_mem (self : SignalSender) (r : Round) (w : World)
    (h : SamplerRegistry.GetState (applyOps r.before_state w)
      ≠ SamplerRegistry.State.HAS_NO_SAMPLERS) (b : Bool) :
    Event.SuspendIfNecessary b ∈ (self.RunPass r w).events ↔
      (SamplerRegistry.GetState (applyOps r.before_state w)
        ≠ SamplerRegistry.State.HAS_CPU_PROFILING_SAMPLERS ∧ b = r.suspend) := by
  by_cases hs : (!decide (SamplerRegistry.GetState (applyOps r.before_state w)
      = SamplerRegistry.State.HAS_CPU_PROFILING_SAMPLERS) && r.suspend) = true
  · rw [RunPass_skipped self r w h hs]
    simp only [Bool.and_eq_true, Bool.not_eq_true', decide_eq_false_iff_not] at hs
    simp only [List.mem_append, List.mem_singleton, Event.GetState.injEq, reduceCtorEq,
      false_or, handlerStep_no_suspend, Event.SuspendIfNecessary.injEq, hs.1,
      not_false_eq_true, hs.2, true_and]
    exact ⟨fun hb => ⟨hs.1, hb⟩, fun hb => hb.2⟩
  · rw [RunPass_notified self r w h hs]
    have hn : Event.SuspendIfNecessary b ∉ (notifyStep self
        (decide (SamplerRegistry.GetState (applyOps r.before_state w)
          = SamplerRegistry.State.HAS_CPU_PROFILING_SAMPLERS)) r.runtime_profiler_enabled r
        (handlerStep (decide (SamplerRegistry.GetState (applyOps r.before_state w)
          = SamplerRegistry.State.HAS_CPU_PROFILING_SAMPLERS)) r.sigaction_ok
          (applyOps r.before_state w)).1).events :=
      fun hmem => notifyStep_events_action _ _ _ _ _ _ hmem rfl
    simp only [List.mem_append, List.mem_singleton, reduceCtorEq, false_or,
      handlerStep_no_suspend, hn, or_false]
    by_cases hc : SamplerRegistry.GetState (applyOps r.before_state w)
        = SamplerRegistry.State.HAS_CPU_PROFILING_SAMPLERS
    · simp [hc]
    · have hsusp : r.suspend = false := by
        simpa [hc] using hs
      simp [hc, hsusp]

/-- C11: in every pass of `SignalSender::Run` that enters the loop body,
`rate_limiter_.SuspendIfNecessary()` is consulted if and only if the registry
state is not `HAS_CPU_PROFILING_SAMPLERS`; when it is consulted and returns
true, the pass makes no notification and no `Sleep`, the query is its last
event, and the next thing `Run` does is to query the registry state again; when
CPU profiling is present the pass is never skipped. -/
theorem C11_rate_limiter_consulted_iff_no_cpu_profiling (self : SignalSender) (r : Round)
    (w : World)
    (hentered : SamplerRegistry.GetState (applyOps r.before_state w)
      ≠ SamplerRegistry.State.HAS_NO_SAMPLERS) :
    ((∃ b, Event.SuspendIfNecessary b ∈ (self.RunPass r w).events) ↔
      SamplerRegistry.GetState (applyOps r.before_state w)
        ≠ SamplerRegistry.State.HAS_CPU_PROFILING_SAMPLERS) ∧
    (∀ b, Event.SuspendIfNecessary b ∈ (self.RunPass r w).events → b = r.suspend) ∧
    (Event.SuspendIfNecessary true ∈ (self.RunPass r w).events →
      actions (self.RunPass r w).events = [] ∧
      (self.RunPass r w).control = Control.skipped ∧
      (∃ pre, (self.RunPass r w).events = pre ++ [Event.SuspendIfNecessary true]) ∧
      ∀ r2 rs, ∃ tail, (self.Run (r :: r2 :: rs) w).events =
        (self.RunPass r w).events ++
          Event.GetState (SamplerRegistry.GetState
            (applyOps r2.before_state (self.RunPass r w).world)) :: tail) ∧
    (SamplerRegistry.GetState (applyOps r.before_state w)
        = SamplerRegistry.State.HAS_CPU_PROFILING_SAMPLERS →
      (∀ b, Event.SuspendIfNecessary b ∉ (self.RunPass r w).events) ∧
      (self.RunPass r w).control ≠ Control.skipped) := by
  have hmem := RunPass_suspend_mem self r w hentered
  refine ⟨?_, ?_, ?_, ?_⟩
  · constructor
    · rintro ⟨b, hb⟩
      exact ((hmem b).mp hb).1
    · intro hc
      exact ⟨r.suspend, (hmem _).mpr ⟨hc, rfl⟩⟩
  · intro b hb
    exact ((hmem b).mp hb).2
  · intro hb
    obtain ⟨hc, hsusp⟩ := (hmem true).mp hb
    have hs : (!decide (SamplerRegistry.GetState (applyOps r.before_state w)
        = SamplerRegistry.State.HAS_CPU_PROFILING_SAMPLERS) && r.suspend) = true := by
      simp [hc, ← hsusp]
    have hpass := RunPass_skipped self r w hentered hs
    have hctl : (self.RunPass r w).control = Control.skipped := by rw [hpass]
    refine ⟨?_, hctl, ?_, ?_⟩
    · rw [hpass]
      simp only [actions_append, handlerStep_actions]
      rfl
    · rw [hpass]
      exact ⟨_, rfl⟩
    · intro r2 rs
      have hrun := Run_cons self r (r2 :: rs) w
      rw [if_pos (Or.inr hctl)] at hrun
      rw [hrun]
      simp only
      obtain ⟨tail2, ht2⟩ := RunPass_events_head self r2 (self.RunPass r w).world
      have hrun2 := Run_cons self r2 rs (self.RunPass r w).world
      by_cases hc2 : (self.RunPass r2 (self.RunPass r w).world).control = Control.next ∨
          (self.RunPass r2 (self.RunPass r w).world).control = Control.skipped
      · rw [if_pos hc2] at hrun2
        rw [hrun2]
        simp only [ht2, List.cons_append]
        exact ⟨_, rfl⟩
      · rw [if_neg hc2] at hrun2
        rw [hrun2]
        simp only [ht2]
        exact ⟨_, rfl⟩
  · intro hc
    refine ⟨fun b hb => ((hmem b).mp hb).1 hc, ?_⟩
    have hs : ¬ (!decide (SamplerRegistry.GetState (applyOps r.before_state w)
        = SamplerRegistry.State.HAS_CPU_PROFILING_SAMPLERS) && r.suspend) = true := by
      simp [hc]
    rw [RunPass_notified self r w hentered hs]
    simp only
    rcases notifyStep_cases self
      (decide (SamplerRegistry.GetState (applyOps r.before_state w)
        = SamplerRegistry.State.HAS_CPU_PROFILING_SAMPLERS)) r.runtime_profiler_enabled r
      (handlerStep (decide (SamplerRegistry.GetState (applyOps r.before_state w)
        = SamplerRegistry.State.HAS_CPU_PROFILING_SAMPLERS)) r.sigaction_ok
        (applyOps r.before_state w)).1 with ⟨h1, _⟩ | ⟨h1, _⟩ <;> rw [h1] <;> simp

/-- C11, at a pass of the dispatcher of sampler 0, which is not profiling, with a
rate limiter that suspends: the limiter is consulted, nothing is notified, no
`Sleep` is made and the pass ends with `continue`. -/
theorem C11_rate_limiter_witness :
    Event.SuspendIfNecessary true ∈ (exampleSender.RunPass suspendRound oneStarted).events ∧
    actions (exampleSender.RunPass suspendRound oneStarted).events = [] ∧
    (exampleSender.RunPass suspendRound oneStarted).control = Control.skipped :=
  have h := (C11_rate_limiter_consulted_iff_no_cpu_profiling exampleSender suspendRound
    oneStarted (by decide)).2.2.1 (by decide)
  ⟨by decide, h.1, h.2.1⟩

end RateLimiter

section SleepInterval

/-- C12: for every dispatcher interval `I` in milliseconds with `I >= 1` and
`I * 1000` representable as a 32-bit signed int, `Sleep(FULL_INTERVAL)` passes
exactly `I * 1000 - 100` microseconds to `usleep` and `Sleep(HALF_INTERVAL)`
passes `floor((I * 1000 - 100) / 2)`, with no wrap-around in `useconds_t`; the
full sleep is strictly shorter than the nominal interval, and two half sleeps
never exceed a full sleep and fall short of it by at most 1 microsecond. -/
theorem C12_sleep_microseconds (self : SignalSender) (hpos : 1 ≤ self.interval_)
    (hrep : self.interval_ * 1000 ≤ 2 ^ 31 - 1) :
    (self.Sleep SleepInterval.FULL_INTERVAL : Int) = self.interval_ * 1000 - 100 ∧
    (self.Sleep SleepInterval.HALF_INTERVAL : Int) = (self.interval_ * 1000 - 100) / 2 ∧
    (self.Sleep SleepInterval.FULL_INTERVAL : Int) < self.interval_ * 1000 ∧
    2 * self.Sleep SleepInterval.HALF_INTERVAL ≤ self.Sleep SleepInterval.FULL_INTERVAL ∧
    self.Sleep SleepInterval.FULL_INTERVAL ≤ 2 * self.Sleep SleepInterval.HALF_INTERVAL + 1 := by
  have hmod : (self.interval_ * 1000 - 100) % 2 ^ 32 = self.interval_ * 1000 - 100 := by
    apply Int.emod_eq_of_lt <;> omega
  have hfull : (self.Sleep SleepInterval.FULL_INTERVAL : Int) = self.interval_ * 1000 - 100 := by
    simp only [SignalSender.Sleep, hmod, reduceCtorEq, if_false]
    omega
  have hhalf : self.Sleep SleepInterval.HALF_INTERVAL
      = self.Sleep SleepInterval.FULL_INTERVAL / 2 := by
    simp [SignalSender.Sleep]
  refine ⟨hfull, ?_, ?_, ?_, ?_⟩
  · rw [hhalf, ← hfull]
    simp
  · omega
  · omega
  · omega

/-- C12, for the 10 ms interval: 9900 microseconds for a full sleep and 4950 for
a half sleep. -/
theorem C12_sleep_microseconds_witness :
    exampleSender.Sleep SleepInterval.FULL_INTERVAL = 9900 ∧
    exampleSender.Sleep SleepInterval.HALF_INTERVAL = 4950 :=
  have h := C12_sleep_microseconds exampleSender (by decide) (by decide)
  have hi : exampleSender.interval_ = 10 := rfl
  ⟨by have h1 := h.1; rw [hi] at h1; omega,
   by have h2 := h.2.1; rw [hi] at h2; omega⟩

end SleepInterval

section HandlerSample

/-- C13: whenever `ProfilerSignalHandler` passes all its precondition checks it
makes exactly three calls: `CpuProfiler::TickSampleEvent`, then
`sampler->SampleStack` and then `sampler->Tick`, both on the isolate's sampler
and with one and the same sample object.  That object is the slot returned by
`TickSampleEvent` when it is non-null and the handler's local `sample_obj`
otherwise; its `state` is the isolate's current VM state and its `pc`, `sp`,
`fp` are the instruction-pointer, stack-pointer and frame-pointer registers the
handler reads from the delivered machine context (on a host for which it has no
`#if` branch it reads none and the three fields stay as the object held
them). -/
theorem C13_handler_forwards_one_sample (SIGPROF signal : Int) (cx : SignalContext)
    (w : World) (hpre : handlerPreconditions SIGPROF signal cx w) :
    ∃ isolate sampler sample,
      cx.current_isolate = some isolate ∧ isolate.sampler = some sampler ∧
      ProfilerSignalHandler SIGPROF signal cx w =
        [HandlerEvent.TickSampleEvent,
         HandlerEvent.SampleStack sampler
           (match cx.tick_sample_event with
            | some (address, _) => SampleLoc.slot address
            | none => SampleLoc.sample_obj) sample,
         HandlerEvent.Tick sampler
           (match cx.tick_sample_event with
            | some (address, _) => SampleLoc.slot address
            | none => SampleLoc.sample_obj) sample] ∧
      sample.state = isolate.current_vm_state ∧
      (∀ ip sp fp, cx.mcontext.registers = some (ip, sp, fp) →
        sample.pc = ip ∧ sample.sp = sp ∧ sample.fp = fp) ∧
      (cx.mcontext.registers = none →
        ∀ held, held = (match cx.tick_sample_event with
            | some (_, content) => content
            | none => cx.sample_obj) →
          sample.pc = held.pc ∧ sample.sp = held.sp ∧ sample.fp = held.fp) := by
  obtain ⟨hsig, isolate, hiso, hinit, huse, hlock, sampler, hsampler, hactive⟩ := hpre
  have hl : (cx.locker_active && !isolate.locked_by_current_thread) = false := by
    rcases hlock with h1 | h1 <;> simp [h1]
  refine ⟨isolate, sampler, ?_⟩
  unfold ProfilerSignalHandler
  simp only [hsig, bne_self_eq_false, Bool.false_eq_true, if_false, hiso, hinit, huse,
    Bool.not_true, Bool.or_self, hl, hsampler, hactive]
  cases hslot : cx.tick_sample_event with
  | none =>
    refine ⟨_, trivial, trivial, rfl, ?_, ?_, ?_⟩
    · cases hm : cx.mcontext <;> rfl
    · intro ip sp fp hreg
      cases hm : cx.mcontext <;> rw [hm] at hreg <;>
        simp only [MContext.registers, Option.some.injEq, Prod.mk.injEq, reduceCtorEq]
          at hreg <;>
        simp [extractRegisters, hreg]
    · intro hreg held hheld
      subst hheld
      cases hm : cx.mcontext <;> rw [hm] at hreg <;>
        simp only [MContext.registers, reduceCtorEq] at hreg
      simp [extractRegisters]
  | some slot =>
    obtain ⟨address, content⟩ := slot
    refine ⟨_, trivial, trivial, rfl, ?_, ?_, ?_⟩
    · cases hm : cx.mcontext <;> rfl
    · intro ip sp fp hreg
      cases hm : cx.mcontext <;> rw [hm] at hreg <;>
        simp only [MContext.registers, Option.some.injEq, Prod.mk.injEq, reduceCtorEq]
          at hreg <;>
        simp [extractRegisters, hreg]
    · intro hreg held hheld
      subst hheld
      cases hm : cx.mcontext <;> rw [hm] at hreg <;>
        simp only [MContext.registers, reduceCtorEq] at hreg
      simp [extractRegisters]

/-- C13, on an X64 host with `rip = 4096`, `rsp = 8192`, `rbp = 8200`, VM state 3,
no free slot and sampler 0 active: the local sample object is forwarded with
exactly these values. -/
theorem C13_handler_forwards_one_sample_witness :
    handlerPreconditions 29 29 exampleContext oneStarted ∧
    ProfilerSignalHandler 29 29 exampleContext oneStarted =
      [HandlerEvent.TickSampleEvent,
       HandlerEvent.SampleStack 0 SampleLoc.sample_obj
         { state := 3, pc := 4096, sp := 8192, fp := 8200 },
       HandlerEvent.Tick 0 SampleLoc.sample_obj
         { state := 3, pc := 4096, sp := 8192, fp := 8200 }] :=
  have hpre : handlerPreconditions 29 29 exampleContext oneStarted :=
    ⟨rfl, _, rfl, rfl, rfl, Or.inl rfl, 0, rfl, by decide⟩
  have h := C13_handler_forwards_one_sample 29 29 exampleContext oneStarted hpre
  ⟨hpre, by
    obtain ⟨isolate, sampler, sample, h1, h2, h3, h4, h5, _⟩ := h
    have hreg := h5 4096 8192 8200 rfl
    have hiso : some isolate = exampleContext.current_isolate := h1.symm
    simp only [exampleContext, Option.some.injEq] at hiso
    subst hiso
    have hs : sampler = 0 := (Option.some.inj h2).symm
    subst hs
    have hsample : sample = { state := 3, pc := 4096, sp := 8192, fp := 8200 } := by
      cases sample
      simp only at h4 hreg
      simp only [TickSample.mk.injEq]
      exact ⟨h4, hreg.1, hreg.2.1, hreg.2.2⟩
    rw [h3, hsample]
    rfl⟩

end HandlerSample

section Quiescence

theorem EnvOp_apply_instance (op : EnvOp) (w : World) : (op.apply w).instance_ = w.instance_ := by
  cases op <;> rfl

theorem applyOps_instance (ops : List EnvOp) : ∀ w : World,
    (applyOps ops w).instance_ = w.instance_ := by
  induction ops with
  | nil => intro w; rfl
  | cons op ops ih =>
    intro w
    exact (ih (op.apply w)).trans (EnvOp_apply_instance op w)

theorem Iterate_instance (v : Visitor) (b d : List EnvOp) (w : World) :
    (SamplerRegistry.IterateActiveSamplers v b d w).world.instance_ = w.instance_ :=
  (applyOps_instance d _).trans (applyOps_instance b w)

theorem notifyStep_instance (self : SignalSender) (cpu rt : Bool) (r : Round) (w : World) :
    (notifyStep self cpu rt r w).world.instance_ = w.instance_ := by
  have h1 := Iterate_instance Visitor.DoCpuProfile r.before_cpu_notify r.during_cpu_notify w
  have h2 := Iterate_instance Visitor.DoRuntimeProfile r.before_tick_notify
    r.during_tick_notify w
  have h3 := Iterate_instance Visitor.DoRuntimeProfile r.before_tick_notify
    r.during_tick_notify (SamplerRegistry.IterateActiveSamplers Visitor.DoCpuProfile
      r.before_cpu_notify r.during_cpu_notify w).world
  cases cpu <;> cases rt <;>
    simp only [notifyStep, Visit.notCalled, Bool.and_self, Bool.and_true, Bool.and_false,
      Bool.false_eq_true, if_false, if_true, Bool.not_true] <;>
    repeat' split
  all_goals first
    | rfl
    | exact h1
    | exact h2
    | exact h3.trans h1

theorem handlerStep_instance (cpu ok : Bool) (w : World) :
    (handlerStep cpu ok w).1.instance_ = w.instance_ := by
  unfold handlerStep
  split
  · unfold InstallSignalHandler; split <;> rfl
  · split
    · exact RestoreSignalHandler_instance w
    · rfl

theorem RunPass_instance (self : SignalSender) (r : Round) (w : World) :
    (self.RunPass r w).world.instance_ = w.instance_ := by
  by_cases h : SamplerRegistry.GetState (applyOps r.before_state w)
      = SamplerRegistry.State.HAS_NO_SAMPLERS
  · rw [RunPass_exited self r w h]
    exact applyOps_instance _ w
  · by_cases hs : (!decide (SamplerRegistry.GetState (applyOps r.before_state w)
        = SamplerRegistry.State.HAS_CPU_PROFILING_SAMPLERS) && r.suspend) = true
    · rw [RunPass_skipped self r w h hs]
      exact (handlerStep_instance _ _ _).trans (applyOps_instance _ w)
    · rw [RunPass_notified self r w h hs]
      exact ((notifyStep_instance _ _ _ _ _).trans (handlerStep_instance _ _ _)).trans
        (applyOps_instance _ w)

theorem HandlerCoherent_of_unchanged {sigprof0 : SigAction} {w w1 : World}
    (hu : HandlerUnchanged w w1) (hc : HandlerCoherent sigprof0 w) :
    HandlerCoherent sigprof0 w1 := by
  obtain ⟨h1, h2, h3⟩ := hu
  unfold HandlerCoherent
  rw [h1, h2, h3]
  exact hc

theorem handlerStep_coherent (sigprof0 : SigAction) (cpu ok : Bool) (w : World)
    (hc : HandlerCoherent sigprof0 w) : HandlerCoherent sigprof0 (handlerStep cpu ok w).1 := by
  obtain ⟨hc1, hc2⟩ := hc
  cases cpu <;> cases ok <;> cases hi : w.signal_handler_installed_ <;>
    simp only [hi, Bool.true_eq_false, Bool.false_eq_true, true_implies, false_implies]
      at hc1 hc2 <;>
    simp [handlerStep, InstallSignalHandler, RestoreSignalHandler, HandlerCoherent, hi, hc1, hc2]

theorem RestoreSignalHandler_coherent (sigprof0 : SigAction) (w : World)
    (hc : HandlerCoherent sigprof0 w) :
    HandlerCoherent sigprof0 (RestoreSignalHandler w) ∧
    (RestoreSignalHandler w).sigprof = sigprof0 := by
  obtain ⟨hc1, hc2⟩ := hc
  cases hi : w.signal_handler_installed_ <;>
    simp only [hi, Bool.true_eq_false, Bool.false_eq_true, true_implies, false_implies]
      at hc1 hc2 <;>
    simp [RestoreSignalHandler, HandlerCoherent, hi, hc1, hc2]

theorem RunPass_coherent (sigprof0 : SigAction) (self : SignalSender) (r : Round) (w : World)
    (hc : HandlerCoherent sigprof0 w) : HandlerCoherent sigprof0 (self.RunPass r w).world := by
  by_cases h : SamplerRegistry.GetState (applyOps r.before_state w)
      = SamplerRegistry.State.HAS_NO_SAMPLERS
  · rw [RunPass_exited self r w h]
    exact HandlerCoherent_of_unchanged (applyOps_handler _ w) hc
  · exact HandlerCoherent_of_unchanged (RunPass_entered self r w h).1
      (handlerStep_coherent sigprof0 _ _ w hc)

theorem AddActiveSampler_handler (s : Ptr) (w : World) :
    HandlerUnchanged w (SignalSender.AddActiveSampler s w).2 := by
  unfold SignalSender.AddActiveSampler
  simp only
  split <;> exact ⟨rfl, rfl, rfl⟩

/-- What `SignalSender::RemoveActiveSampler` does to the handler: nothing while
samplers remain; when it leaves the registry empty, `instance_` is NULL, the
flag is clear, the handler in effect is the saved one if the flag was set and
the one that was in effect otherwise. -/
theorem RemoveActiveSampler_handler (s : Ptr) (w : World) :
    ((SignalSender.RemoveActiveSampler s w).active_samplers_ ≠ [] →
      HandlerUnchanged w (SignalSender.RemoveActiveSampler s w)) ∧
    ((SignalSender.RemoveActiveSampler s w).active_samplers_ = [] →
      (SignalSender.RemoveActiveSampler s w).instance_ = none ∧
      (SignalSender.RemoveActiveSampler s w).signal_handler_installed_ = false ∧
      (SignalSender.RemoveActiveSampler s w).sigprof =
        (if w.signal_handler_installed_ = true then w.old_signal_handler_ else w.sigprof) ∧
      (SignalSender.RemoveActiveSampler s w).old_signal_handler_ = w.old_signal_handler_) := by
  have hreg := RemoveActiveSampler_registry s w
  have hinst := RemoveActiveSampler_instance_eq s w
  rw [hreg]
  constructor
  · intro hne
    unfold SignalSender.RemoveActiveSampler
    simp only
    split
    · next hempty =>
      rw [GetState_none_iff] at hempty
      exact absurd hempty hne
    · exact ⟨rfl, rfl, rfl⟩
  · intro hempty
    refine ⟨by rw [hinst, if_pos hempty], ?_⟩
    unfold SignalSender.RemoveActiveSampler
    simp only
    split
    · cases hi : w.signal_handler_installed_ <;>
        simp [RestoreSignalHandler, SamplerRegistry.RemoveActiveSampler, hi]
    · next hne =>
      rw [GetState_none_iff] at hne
      exact absurd hempty hne

theorem SysStep_invariant (sigprof0 : SigAction) (c : SysStep) (w : World)
    (hc : HandlerCoherent sigprof0 w)
    (hq : w.instance_ = none → w.signal_handler_installed_ = false) :
    HandlerCoherent sigprof0 (c.exec w).2 ∧
    ((c.exec w).2.instance_ = none → (c.exec w).2.signal_handler_installed_ = false) := by
  cases c with
  | AddActiveSampler s =>
    simp only [SysStep.exec]
    refine ⟨HandlerCoherent_of_unchanged (AddActiveSampler_handler s w) hc, ?_⟩
    intro hnone
    have hsome := AddActiveSampler_instance_isSome s w
    rw [hnone] at hsome
    cases hsome
  | RemoveActiveSampler s =>
    simp only [SysStep.exec]
    obtain ⟨h1, h2⟩ := RemoveActiveSampler_handler s w
    by_cases hempty : (SignalSender.RemoveActiveSampler s w).active_samplers_ = []
    · obtain ⟨_, hflag, hsig, hold⟩ := h2 hempty
      refine ⟨?_, fun _ => hflag⟩
      refine ⟨fun h => absurd (hflag.symm.trans h) (by simp), fun _ => ?_⟩
      rw [hsig]
      split
      · next hi => exact (hc.1 hi).2
      · next hi => exact hc.2 (by simpa using hi)
    · have hu := h1 hempty
      refine ⟨HandlerCoherent_of_unchanged hu hc, ?_⟩
      intro hnone
      rw [RemoveActiveSampler_instance_eq] at hnone
      rw [RemoveActiveSampler_registry] at hempty
      rw [if_neg hempty] at hnone
      rw [hu.1]
      exact hq hnone
  | DispatcherPass r =>
    simp only [SysStep.exec]
    cases hi : w.instance_ with
    | none => exact ⟨hc, fun _ => hq hi⟩
    | some inst =>
      refine ⟨RunPass_coherent sigprof0 inst r w hc, ?_⟩
      intro hnone
      have := RunPass_instance inst r w
      simp only at hnone
      rw [this, hi] at hnone
      cases hnone

theorem runSystem_cons (c : SysStep) (cs : List SysStep) (w : World) :
    (runSystem (c :: cs) w).2 =
      if (c.exec w).1 = Outcome.ok then (runSystem cs (c.exec w).2).2 else (c.exec w).2 := by
  simp only [runSystem]
  generalize c.exec w = x
  obtain ⟨o, w1⟩ := x
  cases o <;> rfl

theorem runSystem_invariant (sigprof0 : SigAction) (cs : List SysStep) : ∀ w : World,
    HandlerCoherent sigprof0 w →
    (w.instance_ = none → w.signal_handler_installed_ = false) →
    HandlerCoherent sigprof0 (runSystem cs w).2 ∧
    ((runSystem cs w).2.instance_ = none →
      (runSystem cs w).2.signal_handler_installed_ = false) := by
  induction cs with
  | nil => intro w h1 h2; exact ⟨h1, h2⟩
  | cons c cs ih =>
    intro w h1 h2
    have hstep := SysStep_invariant sigprof0 c w h1 h2
    rw [runSystem_cons]
    by_cases hok : (c.exec w).1 = Outcome.ok
    · rw [if_pos hok]; exact ih _ hstep.1 hstep.2
    · rw [if_neg hok]; exact hstep

theorem HandlerCoherent_init (heap : Ptr → Sampler) (sigprof0 : SigAction) (pid : Int) :
    HandlerCoherent sigprof0 (World.init heap sigprof0 pid) := by
  constructor
  · intro h; simp [World.init] at h
  · intro _; rfl

/-- C14: after every sequence of `SignalSender::AddActiveSampler` /
`RemoveActiveSampler` calls interleaved with passes of the dispatcher (calls that
fall in the middle of a pass included), from the initial state: whenever a
`RemoveActiveSampler` call leaves the registry empty, on its return
`signal_handler_installed_` is false, `instance_` is NULL, the handler saved in
`old_signal_handler_` has been reinstated if the flag was set, and the SIGPROF
handler in effect is the one of the embedding program; and in every state in
which no dispatcher exists the flag is false and that handler is in effect. -/
theorem C14_empty_registry_handler_restored (heap : Ptr → Sampler) (sigprof0 : SigAction)
    (pid : Int) (steps : List SysStep) (s : Ptr) :
    ((SignalSender.RemoveActiveSampler s
        (runSystem steps (World.init heap sigprof0 pid)).2).active_samplers_ = [] →
      (SignalSender.RemoveActiveSampler s
        (runSystem steps (World.init heap sigprof0 pid)).2).signal_handler_installed_
        = false ∧
      (SignalSender.RemoveActiveSampler s
        (runSystem steps (World.init heap sigprof0 pid)).2).instance_ = none ∧
      ((runSystem steps (World.init heap sigprof0 pid)).2.signal_handler_installed_ = true →
        (SignalSender.RemoveActiveSampler s
          (runSystem steps (World.init heap sigprof0 pid)).2).sigprof =
        (runSystem steps (World.init heap sigprof0 pid)).2.old_signal_handler_) ∧
      (SignalSender.RemoveActiveSampler s
        (runSystem steps (World.init heap sigprof0 pid)).2).sigprof = sigprof0) ∧
    ((runSystem steps (World.init heap sigprof0 pid)).2.instance_ = none →
      (runSystem steps (World.init heap sigprof0 pid)).2.signal_handler_installed_ = false ∧
      (runSystem steps (World.init heap sigprof0 pid)).2.sigprof = sigprof0) := by
  obtain ⟨hc, hq⟩ := runSystem_invariant sigprof0 steps (World.init heap sigprof0 pid)
    (HandlerCoherent_init heap sigprof0 pid) (fun _ => rfl)
  generalize (runSystem steps (World.init heap sigprof0 pid)).2 = w at hc hq ⊢
  constructor
  · intro hempty
    obtain ⟨hinst, hflag, hsig, _⟩ := (RemoveActiveSampler_handler s w).2 hempty
    refine ⟨hflag, hinst, ?_, ?_⟩
    · intro hi
      rw [hsig, if_pos hi]
    · rw [hsig]
      split
      · next hi => exact (hc.1 hi).2
      · next hi => exact hc.2 (by simpa using hi)
  · intro hnone
    exact ⟨hq hnone, hc.2 (hq hnone)⟩

/-- C14, after `AddActiveSampler 0` and a pass of the dispatcher in which sampler 0
is profiling, so that the handler is installed: `RemoveActiveSampler 0` empties
the registry, clears the flag and reinstates the handler of the embedding
program (`user 7`). -/
theorem C14_empty_registry_witness :
    (runSystem [SysStep.AddActiveSampler 0, SysStep.DispatcherPass profilingRound]
      (World.init uniformHeap (SigAction.user 7) 42)).2.signal_handler_installed_ = true ∧
    (SignalSender.RemoveActiveSampler 0
      (runSystem [SysStep.AddActiveSampler 0, SysStep.DispatcherPass profilingRound]
        (World.init uniformHeap (SigAction.user 7) 42)).2).signal_handler_installed_
      = false ∧
    (SignalSender.RemoveActiveSampler 0
      (runSystem [SysStep.AddActiveSampler 0, SysStep.DispatcherPass profilingRound]
        (World.init uniformHeap (SigAction.user 7) 42)).2).sigprof = SigAction.user 7 :=
  have h := (C14_empty_registry_handler_restored uniformHeap (SigAction.user 7) 42
    [SysStep.AddActiveSampler 0, SysStep.DispatcherPass profilingRound] 0).1 (by decide)
  ⟨by decide, h.1, h.2.2.2⟩

end Quiescence

section AlignedReservation

theorem RoundUp_bounds (x m : Nat) (hm : 0 < m) :
    x ≤ RoundUp x m ∧ RoundUp x m < x + m := by
  unfold RoundUp
  have h1 := Nat.div_add_mod (x + m - 1) m
  have h2 := Nat.mod_lt (x + m - 1) hm
  have h3 : m * ((x + m - 1) / m) = (x + m - 1) / m * m := Nat.mul_comm _ _
  constructor <;> omega

theorem RoundUp_mod (x m : Nat) : RoundUp x m % m = 0 := by
  unfold RoundUp
  exact Nat.mul_mod_left _ _

theorem RoundUp_add_mul (x k m : Nat) (hm : 0 < m) :
    RoundUp (x + k * m) m = RoundUp x m + k * m := by
  unfold RoundUp
  have h : x + k * m + m - 1 = (x + m - 1) + k * m := by omega
  rw [h, Nat.add_mul_div_right _ _ hm, Nat.add_mul]

theorem RoundUp_le_of_multiple (x y m : Nat) (hm : 0 < m) (hxy : x ≤ y) (hy : y % m = 0) :
    RoundUp x m ≤ y := by
  unfold RoundUp
  obtain ⟨k, hk⟩ := Nat.dvd_of_mod_eq_zero hy
  subst hk
  have hdiv : (x + m - 1) / m ≤ k := by
    have hlt : x + m - 1 < m * k + m := by omega
    have : (x + m - 1) / m < k + 1 := by
      rw [Nat.div_lt_iff_lt_mul hm]
      calc x + m - 1 < m * k + m := hlt
        _ = (k + 1) * m := by rw [Nat.add_mul, Nat.one_mul, Nat.mul_comm]
    omega
  calc (x + m - 1) / m * m ≤ k * m := Nat.mul_le_mul_right m hdiv
    _ = m * k := Nat.mul_comm _ _

theorem wrap_eq (bits x : Nat) (h : x < 2 ^ bits) : wrap bits x = x :=
  Nat.mod_eq_of_lt h

theorem wrapSub_eq (bits a b : Nat) (hba : b ≤ a) (ha : a < 2 ^ bits) :
    wrapSub bits a b = a - b := by
  unfold wrapSub
  have hb : b % 2 ^ bits = b := Nat.mod_eq_of_lt (by omega)
  rw [hb]
  have h : a + 2 ^ bits - b = (a - b) + 2 ^ bits := by omega
  rw [h, Nat.add_mod_right]
  exact Nat.mod_eq_of_lt (by omega)

/-- The value of the constructor when `mmap` succeeds and nothing overflows. -/
theorem aligned_value (bits page size alignment base : Nat) (hpage : 0 < page)
    (hAP : page ∣ alignment) (hApos : 0 < alignment)
    (hfit : base + RoundUp (size + alignment) page < 2 ^ bits) :
    VirtualMemory.aligned bits page size alignment (some base) =
      { outcome := Outcome.ok
        vm := { address_ := RoundUp base alignment, size_ := RoundUp size page }
        request_size := RoundUp (size + alignment) page
        freed :=
          (if RoundUp base alignment = base then []
            else [(base, RoundUp base alignment - base)]) ++
          [(RoundUp base alignment + RoundUp size page,
            base + RoundUp (size + alignment) page
              - (RoundUp base alignment + RoundUp size page))] } := by
  have hR : RoundUp (size + alignment) page = RoundUp size page + alignment := by
    obtain ⟨k, hk⟩ := hAP
    rw [hk, Nat.mul_comm page k]
    exact RoundUp_add_mul size k page hpage
  have hRb := RoundUp_bounds (size + alignment) page hpage
  have hAB := RoundUp_bounds base alignment hApos
  have hAS := RoundUp_bounds size page hpage
  have hal : IsAligned alignment page = true := by
    obtain ⟨k, hk⟩ := hAP
    simp [IsAligned, hk]
  have h1 : wrap bits (size + alignment) = size + alignment := wrap_eq _ _ (by omega)
  have h2 : wrap bits (RoundUp (size + alignment) page) = RoundUp (size + alignment) page :=
    wrap_eq _ _ (by omega)
  have h3 : wrap bits (RoundUp base alignment) = RoundUp base alignment :=
    wrap_eq _ _ (by omega)
  have h4 : wrap bits (RoundUp size page) = RoundUp size page := wrap_eq _ _ (by omega)
  have h5 : wrap bits (RoundUp base alignment + RoundUp size page)
      = RoundUp base alignment + RoundUp size page := wrap_eq _ _ (by omega)
  have hle : decide (base ≤ RoundUp base alignment) = true := decide_eq_true hAB.1
  unfold VirtualMemory.aligned
  simp only [hal, ASSERT, if_true, h1, h2, h3, h4, h5, hle]
  by_cases hb : RoundUp base alignment = base
  · have hs1 : wrapSub bits (RoundUp (size + alignment) page) (RoundUp size page)
        = RoundUp (size + alignment) page - RoundUp size page :=
      wrapSub_eq _ _ _ (by omega) (by omega)
    have hs2 : wrapSub bits (RoundUp (size + alignment) page)
        (RoundUp (size + alignment) page - RoundUp size page) = RoundUp size page := by
      rw [wrapSub_eq _ _ _ (by omega) (by omega)]
      omega
    have hle2 : decide (RoundUp size page ≤ RoundUp (size + alignment) page) = true :=
      decide_eq_true (by omega)
    have hne2 : (RoundUp size page != RoundUp (size + alignment) page) = true := by
      simp only [bne_iff_ne, ne_eq]
      omega
    simp only [hb, bne_self_eq_false, Bool.false_eq_true, if_false, hle2, hne2, if_true, hs1,
      hs2, beq_self_eq_true, List.nil_append]
    have : RoundUp (size + alignment) page - RoundUp size page
        = base + RoundUp (size + alignment) page - (base + RoundUp size page) := by omega
    rw [this]
  · have hne : (RoundUp base alignment != base) = true := by
      simpa [bne_iff_ne] using hb
    have hp : wrapSub bits (RoundUp base alignment) base = RoundUp base alignment - base :=
      wrapSub_eq _ _ _ hAB.1 (by omega)
    have hr1 : wrapSub bits (RoundUp (size + alignment) page) (RoundUp base alignment - base)
        = RoundUp (size + alignment) page - (RoundUp base alignment - base) :=
      wrapSub_eq _ _ _ (by omega) (by omega)
    have hs1 : wrapSub bits
        (RoundUp (size + alignment) page - (RoundUp base alignment - base))
        (RoundUp size page)
        = RoundUp (size + alignment) page - (RoundUp base alignment - base)
          - RoundUp size page :=
      wrapSub_eq _ _ _ (by omega) (by omega)
    have hs2 : wrapSub bits
        (RoundUp (size + alignment) page - (RoundUp base alignment - base))
        (RoundUp (size + alignment) page - (RoundUp base alignment - base)
          - RoundUp size page) = RoundUp size page := by
      rw [wrapSub_eq _ _ _ (by omega) (by omega)]
      omega
    have hle2 : decide (RoundUp size page
        ≤ RoundUp (size + alignment) page - (RoundUp base alignment - base)) = true :=
      decide_eq_true (by omega)
    have hne2 : (RoundUp size page
        != RoundUp (size + alignment) page - (RoundUp base alignment - base)) = true := by
      simp only [bne_iff_ne, ne_eq]
      omega
    simp only [hne, if_true, hp, hr1, hle2, hne2, hs1, hs2, beq_self_eq_true, hb, if_false,
      List.singleton_append]
    have : RoundUp (size + alignment) page - (RoundUp base alignment - base)
          - RoundUp size page
        = base + RoundUp (size + alignment) page
          - (RoundUp base alignment + RoundUp size page) := by omega
    rw [this]

/-- C15: for every size, every page size `P` and alignment `A` that are powers of
two with `A` a multiple of `P`, and every `P`-aligned address `base` returned by
`mmap` such that the reserved range `[base, base + RoundUp(size + A, P))` does
not overflow the address space, `VirtualMemory(size, alignment)` passes all its
assertions, has asked `mmap` for `RoundUp(size + A, P)` bytes, and ends with
`address_` a multiple of `A`, `size_ == RoundUp(size, P)` and
`[address_, address_ + size_)` inside the reserved range; every freed region lies
in the reserved range, is disjoint from the retained range, and starts at and
spans a multiple of `P`; the freed and the retained bytes add up to the
reservation.  If `mmap` fails, `address_` stays NULL, `size_` stays 0 and
nothing is freed. -/
theorem C15_aligned_reservation (bits page size alignment base : Nat)
    (hP : ∃ p, page = 2 ^ p) (hA : ∃ a, alignment = 2 ^ a) (hAP : page ∣ alignment)
    (hbase : base % page = 0)
    (hfit : base + RoundUp (size + alignment) page < 2 ^ bits) :
    (VirtualMemory.aligned bits page size alignment (some base)).outcome = Outcome.ok ∧
    (VirtualMemory.aligned bits page size alignment (some base)).request_size
      = RoundUp (size + alignment) page ∧
    (VirtualMemory.aligned bits page size alignment (some base)).vm.address_ % alignment = 0 ∧
    (VirtualMemory.aligned bits page size alignment (some base)).vm.size_
      = RoundUp size page ∧
    base ≤ (VirtualMemory.aligned bits page size alignment (some base)).vm.address_ ∧
    (VirtualMemory.aligned bits page size alignment (some base)).vm.address_ +
      (VirtualMemory.aligned bits page size alignment (some base)).vm.size_
      ≤ base + RoundUp (size + alignment) page ∧
    (∀ f ∈ (VirtualMemory.aligned bits page size alignment (some base)).freed,
      base ≤ f.1 ∧ f.1 + f.2 ≤ base + RoundUp (size + alignment) page ∧
      (f.1 + f.2 ≤ (VirtualMemory.aligned bits page size alignment (some base)).vm.address_ ∨
        (VirtualMemory.aligned bits page size alignment (some base)).vm.address_ +
          (VirtualMemory.aligned bits page size alignment (some base)).vm.size_ ≤ f.1) ∧
      f.1 % page = 0 ∧ f.2 % page = 0) ∧
    (((VirtualMemory.aligned bits page size alignment (some base)).freed.map Prod.snd).sum +
      (VirtualMemory.aligned bits page size alignment (some base)).vm.size_
      = RoundUp (size + alignment) page) ∧
    (VirtualMemory.aligned bits page size alignment none).outcome = Outcome.ok ∧
    (VirtualMemory.aligned bits page size alignment none).vm
      = { address_ := 0, size_ := 0 } ∧
    (VirtualMemory.aligned bits page size alignment none).freed = [] := by
  have hpage : 0 < page := by obtain ⟨p, hp⟩ := hP; rw [hp]; exact Nat.pow_pos (by decide)
  have hApos : 0 < alignment := by
    obtain ⟨a, ha⟩ := hA; rw [ha]; exact Nat.pow_pos (by decide)
  have hR : RoundUp (size + alignment) page = RoundUp size page + alignment := by
    obtain ⟨k, hk⟩ := hAP
    rw [hk, Nat.mul_comm page k]
    exact RoundUp_add_mul size k page hpage
  have hAB := RoundUp_bounds base alignment hApos
  have hAS := RoundUp_bounds size page hpage
  have dAB : page ∣ RoundUp base alignment :=
    Nat.dvd_trans hAP (Nat.dvd_of_mod_eq_zero (RoundUp_mod base alignment))
  have dAS : page ∣ RoundUp size page := Nat.dvd_of_mod_eq_zero (RoundUp_mod size page)
  have dR : page ∣ RoundUp (size + alignment) page :=
    Nat.dvd_of_mod_eq_zero (RoundUp_mod _ page)
  have dbase : page ∣ base := Nat.dvd_of_mod_eq_zero hbase
  have hnone : VirtualMemory.aligned bits page size alignment none =
      { outcome := Outcome.ok, vm := { address_ := 0, size_ := 0 },
        request_size := wrap bits (RoundUp (wrap bits (size + alignment)) page),
        freed := [] } := by
    have hal : IsAligned alignment page = true := by
      obtain ⟨k, hk⟩ := hAP
      simp [IsAligned, hk]
    unfold VirtualMemory.aligned
    simp only [hal, ASSERT, if_true]
  rw [aligned_value bits page size alignment base hpage hAP hApos hfit, hnone]
  refine ⟨rfl, rfl, RoundUp_mod base alignment, rfl, hAB.1, by simp only; omega, ?_, ?_,
    rfl, rfl, rfl⟩
  · intro f hf
    simp only [List.mem_append, List.mem_singleton] at hf
    rcases hf with hf | hf
    · split at hf
      · simp at hf
      · simp only [List.mem_singleton] at hf
        subst hf
        simp only
        refine ⟨Nat.le_refl _, by omega, Or.inl (by omega), hbase, ?_⟩
        exact Nat.mod_eq_zero_of_dvd (Nat.dvd_sub' dAB dbase)
    · subst hf
      simp only
      refine ⟨by omega, by omega, Or.inr (Nat.le_refl _), ?_, ?_⟩
      · exact Nat.mod_eq_zero_of_dvd (Nat.dvd_add dAB dAS)
      · exact Nat.mod_eq_zero_of_dvd
          (Nat.dvd_sub' (Nat.dvd_add dbase dR) (Nat.dvd_add dAB dAS))
  · simp only
    split
    · next hb =>
      simp only [List.nil_append, List.map_cons, List.map_nil, List.sum_cons, List.sum_nil]
      omega
    · simp only [List.singleton_append, List.map_cons, List.map_nil, List.sum_cons,
        List.sum_nil]
      omega

/-- C15, on a 32-bit machine with 4096-byte pages: 10000 bytes aligned to 1 MiB in
a reservation at `0x10001000` give 12288 bytes at `0x10100000`, after freeing
the 1044480 bytes before and the 4096 bytes after. -/
theorem C15_aligned_reservation_witness :
    (VirtualMemory.aligned 32 4096 10000 1048576 (some 268439552)).outcome = Outcome.ok ∧
    (VirtualMemory.aligned 32 4096 10000 1048576 (some 268439552)).vm.address_ % 1048576
      = 0 ∧
    (VirtualMemory.aligned 32 4096 10000 1048576 (some 268439552)).vm
      = { address_ := 269484032, size_ := 12288 } ∧
    (VirtualMemory.aligned 32 4096 10000 1048576 (some 268439552)).freed
      = [(268439552, 1044480), (269496320, 4096)] :=
  have h := C15_aligned_reservation 32 4096 10000 1048576 268439552 ⟨12, by decide⟩
    ⟨20, by decide⟩ ⟨256, by decide⟩ (by decide) (by decide)
  ⟨h.1, h.2.2.1, by decide, by decide⟩

end AlignedReservation

end V8QNX
